import Mathlib

/-!
# lkdex `config` package: path resolution and the pid-file guard

A shallow embedding of `src/config/config.go`.

* Go strings are modelled as Lean `String`s.  The path functions only ever
  inspect the ASCII bytes `/` and `.`, which never occur inside a multi-byte
  UTF-8 sequence, so working on characters instead of bytes does not change
  any result on well-formed UTF-8 text.
* `path/filepath` is modelled for the Unix build of Go (`Separator = '/'`,
  no volume names): `IsAbs`, `Clean`, `Join`, `Dir`.
* `os.Stat`, `os.Create`, `(*File).WriteString` and `os.Getpid` act on an
  explicit `World`: a directory tree of regular files, directories, symbolic
  links and hard links with the permissions of this process, the working
  directory, a free-space counter, the process id and the text written to
  stdout.  A path name is resolved the way `stat(2)` and `open(2)` do it:
  component by component from the root or the working directory, through
  searchable directories, symbolic links followed, so that two names of one
  file lead to one place.  Every other reason for which the kernel may refuse
  a call is a fault field of the world.
* A nil pointer is `none`; dereferencing it is the panic `nilDereference`.
-/

namespace Lkdex

/-! ## `path/filepath` (Unix) -/

/-- Go `filepath.IsAbs` on Unix: `strings.HasPrefix(path, "/")`. -/
def IsAbs (path : String) : Bool :=
  match path.data with
  | c :: _ => c == '/'
  | [] => false

/-- Go `os.IsPathSeparator` on Unix. -/
def IsPathSeparator (c : Char) : Bool := c == '/'

/-- The test `r == n || os.IsPathSeparator(path[r])` on the unread input `path[r:]`. -/
def atEndOrSep : List Char → Bool
  | [] => true
  | c :: _ => IsPathSeparator c

/-- The backtracking loop of `Clean` for a `..` element, entered after `out.w--`:
`for out.w > dotdot && !os.IsPathSeparator(out.index(out.w)) { out.w-- }`.
The argument and the result are the write index `out.w`. -/
def backtrack (out : List Char) (dotdot : Nat) : Nat → Nat
  | 0 => 0
  | w + 1 =>
    if w + 1 > dotdot && !IsPathSeparator (out.getD (w + 1) '/') then
      backtrack out dotdot w
    else w + 1

/-- The main loop `for r < n { switch ... }` of Go `filepath.Clean`.
`rest` is the unread input `path[r:]`, `out` the bytes written so far
(`out.w = out.length`), `dotdot` the index where `..` must stop.  Every
iteration consumes at least one byte of `rest`; the first argument bounds the
number of iterations, and `none` means the bound was hit with input left. -/
def cleanLoop (rooted : Bool) : Nat → List Char → List Char → Nat → Option (List Char)
  | _, [], out, _ => some out
  | 0, _ :: _, _, _ => none
  | fuel + 1, c :: cs, out, dotdot =>
    if IsPathSeparator c then
      -- empty path element
      cleanLoop rooted fuel cs out dotdot
    else if c == '.' && atEndOrSep cs then
      -- . element
      cleanLoop rooted fuel cs out dotdot
    else if c == '.' && cs.head? == some '.' && atEndOrSep cs.tail then
      -- .. element: remove to last separator
      if out.length > dotdot then
        -- can backtrack
        cleanLoop rooted fuel cs.tail (out.take (backtrack out dotdot (out.length - 1))) dotdot
      else if !rooted then
        -- cannot backtrack, but not rooted, so append .. element
        let out1 := if out.length > 0 then out ++ ['/'] else out
        let out2 := out1 ++ ['.', '.']
        cleanLoop rooted fuel cs.tail out2 out2.length
      else
        cleanLoop rooted fuel cs.tail out dotdot
    else
      -- real path element: add slash if needed, then copy the element
      let out1 :=
        if (rooted && out.length != 1) || (!rooted && out.length != 0) then out ++ ['/'] else out
      cleanLoop rooted fuel ((c :: cs).dropWhile (fun x => !IsPathSeparator x))
        (out1 ++ (c :: cs).takeWhile (fun x => !IsPathSeparator x)) dotdot

/-- Go `filepath.Clean` on Unix, on the characters of the path. -/
def cleanChars (path : List Char) : List Char :=
  match path with
  | [] => ['.']
  | c :: cs =>
    let rooted := IsPathSeparator c
    let res :=
      if rooted then cleanLoop rooted (c :: cs).length cs ['/'] 1
      else cleanLoop rooted (c :: cs).length (c :: cs) [] 0
    match res with
    | some out => if out.length = 0 then ['.'] else out
    | none => ['.']

/-- Go `filepath.Clean` on Unix. -/
def Clean (path : String) : String := ⟨cleanChars path.data⟩

/-- Go `strings.Join(elems, sep)`. -/
def stringsJoin : List String → String → String
  | [], _ => ""
  | [e], _ => e
  | e :: es, sep => e ++ sep ++ stringsJoin es sep

/-- Go `filepath.Join` on Unix: the elements from the first non-empty one on
are joined with `/` and the result is cleaned; `""` when all are empty. -/
def Join : List String → String
  | [] => ""
  | e :: es => if e ≠ "" then Clean (stringsJoin (e :: es) "/") else Join es

/-- Go `filepath.Dir` on Unix: everything up to the last separator, cleaned. -/
def Dir (path : String) : String :=
  Clean ⟨(path.data.reverse.dropWhile (fun x => !IsPathSeparator x)).reverse⟩

/-! ## `config.go`: path resolution -/

/-- Function `rootify` (config.go:82): helper function to make config creation
independent of root dir. -/
def rootify (path root : String) : String :=
  if IsAbs path then path else Join [root, path]

/-! ## `config.go`: configuration tree -/

/-- Struct `BaseConfig` (config.go:21).  Fields left out of a literal take Go's zero value. -/
structure BaseConfig where
  Password : String := ""
  PasswordFile : String := ""
  KeystoreFile : String := ""
  KdfRounds : Int := 0
  Detach : Bool := false
  MaxConcurrency : Int := 0
  Pidfile : String := ""
  LogLevel : String := ""
  RootDir : String := ""
  DBBackend : String := ""
  DBPath : String := ""
  KeyStorePath : String := ""
  LogPath : String := ""
  LogFile : String := ""
  TestNet : Bool := false
  ContractAddr : String := ""
  deriving DecidableEq

/-- Struct `DaemonConfig` (config.go:112). -/
structure DaemonConfig where
  PeerRPC : String := ""
  PeerWS : String := ""
  Login : String := ""
  Trusted : Bool := false
  Testnet : Bool := false
  deriving DecidableEq

/-- Struct `RPCConfig` (config.go:121).  A nil slice and an empty slice are both `[]`. -/
structure RPCConfig where
  IpcEndpoint : String := ""
  HTTPEndpoint : String := ""
  HTTPModules : List String := []
  HTTPCores : List String := []
  VHosts : List String := []
  WSEndpoint : String := ""
  WSModules : List String := []
  WSOrigins : List String := []
  WSExposeAll : Bool := false
  deriving DecidableEq

/-- The fields of `log.RotateConfig` (package `linkchain/libs/log`) that
`config.go` sets. -/
structure RotateConfig where
  Filename : String := ""
  Daily : Bool := false
  MaxDays : Int := 0
  Rotate : Bool := false
  RotatePerm : String := ""
  Perm : String := ""
  deriving DecidableEq

/-- Struct `Config` (config.go:186): `BaseConfig` embedded, four pointer-typed
sections (`none` is the nil pointer). -/
structure Config extends BaseConfig where
  Daemon : Option DaemonConfig := none
  WalletDaemon : Option DaemonConfig := none
  RPC : Option RPCConfig := none
  Log : Option RotateConfig := none
  deriving DecidableEq

/-- Package-level default names (config.go:11). -/
def DefaultDexDir : String := "lkdex"
/-- Default database directory name. -/
def defaultDataDir : String := "data"
/-- Default log directory name. -/
def defaultLogDir : String := "logs"
/-- Default log file name. -/
def defaultLogFileName : String := "dex.log"
/-- Default pid file name. -/
def defaultPidFile : String := "dex.pid"

/-- Function `DefaultBaseConfig` (config.go:47). -/
def DefaultBaseConfig : BaseConfig :=
  { Password := ""
    KdfRounds := 1
    Detach := false
    MaxConcurrency := 1
    LogLevel := "debug"
    DBBackend := "leveldb"
    DBPath := defaultDataDir
    LogPath := defaultLogDir
    Pidfile := defaultPidFile }

/-- Method `LogDir` (config.go:62). -/
def BaseConfig.LogDir (cfg : BaseConfig) : String := rootify cfg.LogPath cfg.RootDir

/-- Method `DBDir` (config.go:67). -/
def BaseConfig.DBDir (cfg : BaseConfig) : String := rootify cfg.DBPath cfg.RootDir

/-- Method `KeyStoreDir` (config.go:72). -/
def BaseConfig.KeyStoreDir (cfg : BaseConfig) : String := rootify cfg.KeyStorePath cfg.RootDir

/-- Method `PidFileDir` (config.go:77). -/
def BaseConfig.PidFileDir (cfg : BaseConfig) : String := rootify cfg.Pidfile cfg.RootDir

/-- Function `DefaultDaemonConfig` (config.go:134). -/
def DefaultDaemonConfig : DaemonConfig :=
  { PeerRPC := "http://127.0.0.1:8000"
    PeerWS := "ws://127.0.0.1:8001"
    Login := ""
    Trusted := true
    Testnet := true }

/-- Function `DefaultWalletDaemonConfig` (config.go:145). -/
def DefaultWalletDaemonConfig : DaemonConfig :=
  { PeerRPC := "http://127.0.0.1:18082"
    Login := ""
    Trusted := true
    Testnet := true }

/-- Function `DefaultRPCConfig` (config.go:155). -/
def DefaultRPCConfig : RPCConfig :=
  { IpcEndpoint := "dex.ipc"
    HTTPEndpoint := "127.0.0.1:18804"
    HTTPModules := ["wlt", "dex"]
    HTTPCores := ["*"]
    VHosts := ["*"]
    WSEndpoint := "127.0.0.1:18805"
    WSModules := ["wlt", "dex"]
    WSExposeAll := true
    WSOrigins := ["*"] }

/-- Function `DefaultRotateConfig` (config.go:170). -/
def DefaultRotateConfig : RotateConfig :=
  { Filename := defaultLogFileName
    Daily := true
    MaxDays := 7
    Rotate := true
    RotatePerm := "0444"
    Perm := "0664" }

deriving instance DecidableEq for Except

/-- A run-time panic of the Go program. -/
inductive Panic where
  | nilDereference
  deriving DecidableEq

/-- Method `IPCFile` (config.go:181) on a non-nil receiver: `cfg.RPC.IpcEndpoint`
dereferences the `RPC` pointer, which panics when it is nil. -/
def Config.IPCFile (cfg : Config) : Except Panic String :=
  match cfg.RPC with
  | none => .error .nilDereference
  | some rpc => .ok (rootify rpc.IpcEndpoint cfg.RootDir)

/-- Function `DefaultConfig` (config.go:196). -/
def DefaultConfig : Config :=
  { toBaseConfig := DefaultBaseConfig
    Daemon := some DefaultDaemonConfig
    WalletDaemon := some DefaultWalletDaemonConfig
    RPC := some DefaultRPCConfig
    Log := some DefaultRotateConfig }

/-- Function `DefaultLogLevel` (config.go:207).  Its Go doc comment reads:
"DefaultLogLevel returns a default log level of "info"". -/
def DefaultLogLevel : String := "debug"

/-! ## The operating system as seen by `SavePid` -/

/-- Error numbers a system call can fail with. -/
inductive Errno where
  | ENOENT | ENOTDIR | EISDIR | EACCES | ENOSPC | EEXIST | ENOTEMPTY
  | ELOOP | ENAMETOOLONG | EBADF | EIO | EMFILE | EROFS
  deriving DecidableEq

/-- A Go `error` value: one made by `fmt.Errorf`, or an `*os.PathError`
wrapping the error number of a failed system call. -/
inductive GoError where
  | errorf (msg : String)
  | pathError (op : String) (path : String) (errno : Errno)
  deriving DecidableEq

/-- A place in the directory tree: the names of the directory entries that
lead to it from the root, without `.`, `..` or empty names.  Two path names
that the kernel resolves to one file denote one place. -/
abbrev Loc := List String

/-- What is found at a place: a regular file with its contents (`readWrite`:
may this process open it for reading and writing), a directory (`search`: may
this process look names up in it, `write`: may it create entries in it), a
symbolic link with its target, or a hard link: one more name of the regular
file whose first name is at the place `file`. -/
inductive Node where
  | file (data : String) (readWrite : Bool)
  | dir (search : Bool) (write : Bool)
  | link (target : String)
  | hardLink (file : Loc)
  deriving DecidableEq

/-- The part of the machine `SavePid` interacts with.  `nodes` is the
directory tree (the first binding of a place is the live one), `cwd` the
working directory relative path names start from, `free` the free space in
bytes.  `statFault`, `createFault` and `writeFault` stand for every refusal of
the kernel that the tree does not explain (an I/O error, too many open files,
a read-only filesystem, a quota, a file that is in use, ...): when set, the
call fails with that error number and does nothing. -/
structure World where
  nodes : List (Loc × Node)
  cwd : Loc := []
  free : Nat
  pid : Nat
  stdout : String
  statFault : Option Errno := none
  createFault : Option Errno := none
  writeFault : Option Errno := none
  deriving DecidableEq

/-- The node at a place, if any. -/
def World.node (w : World) (loc : Loc) : Option Node := w.nodes.lookup loc

/-- Put a node at a place. -/
def World.bind (w : World) (loc : Loc) (n : Node) : World :=
  { w with nodes := (loc, n) :: w.nodes }

/-- The names between the separators of a path name, empty names included
(Go `strings.Split(path, "/")`). -/
def splitPath : List Char → List String
  | [] => [""]
  | c :: cs =>
    if IsPathSeparator c then "" :: splitPath cs
    else
      match splitPath cs with
      | [] => [String.singleton c]
      | h :: t => (String.singleton c ++ h) :: t

/-- The outcome of resolving a path name: the place it leads to and the node
there, or a place where nothing is yet, in a directory that exists and may be
searched (`slash`: the name ended in a separator). -/
inductive Resolved where
  | found (loc : Loc) (n : Node)
  | absent (loc : Loc) (slash : Bool)
  deriving DecidableEq

/-- The path walk of the kernel from the directory `cur` over the remaining
names: empty names are skipped, `.` stays and `..` goes to the parent, every
directory a name is looked up in must be searchable, a name is at most 255
bytes long, a symbolic link, also in the last position, is followed by
`follow`, and a hard link leads to the file it names. -/
def walkWith (nodes : List (Loc × Node)) (follow : Loc → List String → Except Errno Resolved) :
    Loc → List String → Except Errno Resolved
  | cur, [] =>
    match nodes.lookup cur with
    | some n => .ok (.found cur n)
    | none => .error .ENOENT
  | cur, c :: rest =>
    if c = "" then walkWith nodes follow cur rest
    else
      match nodes.lookup cur with
      | some (.dir search _) =>
        if !search then .error .EACCES
        else if c = "." then walkWith nodes follow cur rest
        else if c = ".." then walkWith nodes follow cur.dropLast rest
        else if c.utf8ByteSize > 255 then .error .ENAMETOOLONG
        else
          match nodes.lookup (cur ++ [c]) with
          | none =>
            if rest = [] then .ok (.absent (cur ++ [c]) false)
            else if rest.all (fun x => x = "") then .ok (.absent (cur ++ [c]) true)
            else .error .ENOENT
          | some (.link target) =>
            if target = "" then .error .ENOENT
            else follow (if IsAbs target then [] else cur) (splitPath target.data ++ rest)
          | some (.file d rw) =>
            if rest = [] then .ok (.found (cur ++ [c]) (.file d rw)) else .error .ENOTDIR
          | some (.hardLink p) =>
            match nodes.lookup p with
            | some (.file d rw) =>
              if rest = [] then .ok (.found p (.file d rw)) else .error .ENOTDIR
            | _ => .error .ENOENT
          | some (.dir _ _) => walkWith nodes follow (cur ++ [c]) rest
      | some _ => .error .ENOTDIR
      | none => .error .ENOENT

/-- The path walk with at most `links` symbolic links followed; one more is
`ELOOP`. -/
def walk (nodes : List (Loc × Node)) : Nat → Loc → List String → Except Errno Resolved
  | 0 => walkWith nodes (fun _ _ => .error .ELOOP)
  | links + 1 => walkWith nodes (walk nodes links)

/-- Path resolution as `stat(2)` and `open(2)` do it, symbolic links followed
(at most 40, as on Linux): an empty name is `ENOENT`, a name of 4096 bytes or
more `ENAMETOOLONG`, an absolute name starts from the root and a relative one
from the working directory. -/
def resolveIn (nodes : List (Loc × Node)) (cwd : Loc) (name : String) : Except Errno Resolved :=
  if name = "" then .error .ENOENT
  else if name.utf8ByteSize ≥ 4096 then .error .ENAMETOOLONG
  else walk nodes 40 (if IsAbs name then [] else cwd) (splitPath name.data)

/-- Path resolution in a world. -/
def World.resolve (w : World) (name : String) : Except Errno Resolved :=
  resolveIn w.nodes w.cwd name

/-- Go `os.IsExist`: the error reports that a file or directory already exists. -/
def IsExist : GoError → Bool
  | .pathError _ _ errno => errno == .EEXIST || errno == .ENOTEMPTY
  | .errorf _ => false

/-- Go `os.Stat`, keeping only the error: nil (`none`) when the name leads to
a node. -/
def osStat (w : World) (name : String) : Option GoError :=
  match w.statFault with
  | some e => some (.pathError "stat" name e)
  | none =>
    match w.resolve name with
    | .error e => some (.pathError "stat" name e)
    | .ok (.absent _ _) => some (.pathError "stat" name .ENOENT)
    | .ok (.found _ _) => none

/-- Go `os.Create` = `OpenFile(name, O_RDWR|O_CREATE|O_TRUNC, 0666)`: creates
the file, or truncates it when it is already there.  Returns the world in
which the file is open and the handle, the place of the open file, positioned
at offset 0. -/
def osCreate (w : World) (name : String) : Except GoError (World × Loc) :=
  match w.createFault with
  | some e => .error (.pathError "open" name e)
  | none =>
    match w.resolve name with
    | .error e => .error (.pathError "open" name e)
    | .ok (.found _ (.dir _ _)) => .error (.pathError "open" name .EISDIR)
    | .ok (.found _ (.link _)) => .error (.pathError "open" name .ELOOP)
    | .ok (.found _ (.hardLink _)) => .error (.pathError "open" name .ENOENT)
    | .ok (.found loc (.file d rw)) =>
      if rw then
        .ok ({ w.bind loc (.file "" rw) with free := w.free + d.utf8ByteSize }, loc)
      else .error (.pathError "open" name .EACCES)
    | .ok (.absent _ true) => .error (.pathError "open" name .EISDIR)
    | .ok (.absent loc false) =>
      match w.node loc.dropLast with
      | some (.dir _ true) => .ok (w.bind loc (.file "" true), loc)
      | _ => .error (.pathError "open" name .EACCES)

/-- Go `(*File).WriteString` on a handle that `os.Create` returned (offset 0)
for the file named `name`: the text replaces the first bytes of the file.
Fails with `ENOSPC`, writing nothing, when the free space is too small. -/
def WriteString (w : World) (name : String) (fd : Loc) (s : String) : Except GoError World :=
  match w.writeFault with
  | some e => .error (.pathError "write" name e)
  | none =>
    match w.node fd with
    | some (.file d rw) =>
      if s.utf8ByteSize ≤ w.free then
        .ok { w.bind fd (.file (s ++ ⟨d.data.drop s.length⟩) rw) with
              free := w.free - s.utf8ByteSize }
      else .error (.pathError "write" name .ENOSPC)
    | _ => .error (.pathError "write" name .EBADF)

/-- Go `fmt.Sprintf("%d", n)` for a non-negative `n`. -/
def sprintfD (n : Nat) : String := Nat.repr n

/-- Go `fmt.Printf`: the text goes to standard output. -/
def Printf (w : World) (s : String) : World := { w with stdout := w.stdout ++ s }

/-! ## `config.go`: the pid-file guard -/

/-- The text of `fmt.Errorf("%s is exist,SavePid fail", pidFilePath)` (config.go:94). -/
def existMessage (pidFilePath : String) : String := pidFilePath ++ " is exist,SavePid fail"

/-- The text of `fmt.Printf("SavePid,pidpath:%s, pid:%d \n", pidFilePath, pid)` (config.go:104). -/
def savePidNotice (pidFilePath : String) (pid : Nat) : String :=
  "SavePid,pidpath:" ++ pidFilePath ++ ", pid:" ++ sprintfD pid ++ " \n"

/-- Method `SavePid` (config.go:89): the returned error (`none` is nil) and the
world it leaves.  `defer fd.Close()` releases the handle and changes nothing
that is modelled. -/
def BaseConfig.SavePid (cfg : BaseConfig) (w : World) : Option GoError × World :=
  let pidFilePath := cfg.PidFileDir
  let err := osStat w pidFilePath
  if err.isNone || (err.isSome && err.any IsExist) then
    (some (.errorf (existMessage pidFilePath)), w)
  else
    match osCreate w pidFilePath with
    | .error e => (some e, w)
    | .ok (w1, fd) =>
      let pid := w1.pid
      let w2 := Printf w1 (savePidNotice pidFilePath pid)
      match WriteString w2 pidFilePath fd (sprintfD pid) with
      | .error e => (some e, w2)
      | .ok w3 => (none, w3)

/-- Method `SavePid` with the rest of the system taking a step `other` between the
`os.Stat` pre-check (config.go:92) and the `os.Create` (config.go:97). -/
def BaseConfig.SavePidRacing (cfg : BaseConfig) (other : World → World) (w : World) :
    Option GoError × World :=
  let pidFilePath := cfg.PidFileDir
  let err := osStat w pidFilePath
  if err.isNone || (err.isSome && err.any IsExist) then
    (some (.errorf (existMessage pidFilePath)), w)
  else
    let w0 := other w
    match osCreate w0 pidFilePath with
    | .error e => (some e, w0)
    | .ok (w1, fd) =>
      let pid := w1.pid
      let w2 := Printf w1 (savePidNotice pidFilePath pid)
      match WriteString w2 pidFilePath fd (sprintfD pid) with
      | .error e => (some e, w2)
      | .ok w3 => (none, w3)

/-! ## Reference notions used to state the properties -/

/-- The join as the specification words it: empty elements dropped, the rest
joined with the separator, and the result cleaned. -/
def joinAsDescribed (elems : List String) : String :=
  Clean (stringsJoin (elems.filter (fun e => e ≠ "")) "/")

/-- The number a text denotes when read as a decimal numeral. -/
def decimalValue (s : String) : Nat :=
  s.data.foldl (fun acc c => 10 * acc + (c.toNat - '0'.toNat)) 0

/-- The contents read through a path name: the data of the regular file the
name leads to. -/
def World.contents (w : World) (name : String) : Option String :=
  match w.resolve name with
  | .ok (.found _ (.file d _)) => some d
  | _ => none

/-- What a resolution becomes once the regular file `newn` is at the place
`target`, where before there was nothing or another regular file. -/
def Resolved.after (target : Loc) (newn : Node) : Resolved → Except Errno Resolved
  | .found loc n => if loc = target then .ok (.found target newn) else .ok (.found loc n)
  | .absent loc slash =>
    if loc = target then (if slash then .error .ENOTDIR else .ok (.found target newn))
    else .ok (.absent loc slash)

/-- A resolution agrees with the tree: the node it reports is the node at
that place, and a place it reports as empty is empty. -/
def Resolved.agrees (nodes : List (Loc × Node)) : Resolved → Prop
  | .found loc n => nodes.lookup loc = some n
  | .absent loc _ => nodes.lookup loc = none

/-- The place a resolution reports. -/
def Resolved.loc : Resolved → Loc
  | .found loc _ => loc
  | .absent loc _ => loc

/-- The place a path name denotes, whether something is there or not. -/
def World.place (w : World) (name : String) : Option Loc :=
  match w.resolve name with
  | .ok r => some r.loc
  | .error _ => none

/-! ## Example inputs -/

/-- The default base configuration with `RootDir` set to `/var/lib/dex`. -/
def exampleConfig : BaseConfig := { DefaultBaseConfig with RootDir := "/var/lib/dex" }

/-- A machine on which `/var/lib/dex` exists, is writable and is still empty;
the running process has id 4242. -/
def exampleWorld : World :=
  { nodes := [(["var", "lib", "dex"], .dir true true), (["var", "lib"], .dir true true),
              (["var"], .dir true true), ([], .dir true true)]
    free := 4096
    pid := 4242
    stdout := "" }

/-- The same machine with a pid file left behind by process 31337. -/
def staleWorld : World := exampleWorld.bind ["var", "lib", "dex", "dex.pid"] (.file "31337" true)

/-- A competing process that creates the pid file and writes its own id, 31337. -/
def competitor (w : World) : World := w.bind ["var", "lib", "dex", "dex.pid"] (.file "31337" true)

/-- A machine whose disk is full. -/
def fullWorld : World := { exampleWorld with free := 0 }

/-- The example machine with, at the pid path, a symbolic link to the file
`run.pid` of the same directory, which does not exist. -/
def linkWorld : World := exampleWorld.bind ["var", "lib", "dex", "dex.pid"] (.link "run.pid")

/-- The stale machine with the directory `/var/lib/dex` closed to this
process: it may neither look names up in it nor create entries. -/
def closedWorld : World := staleWorld.bind ["var", "lib", "dex"] (.dir false false)

/-- The stale machine with a second name, `/var/old.pid`, for the stale pid
file. -/
def hardLinkWorld : World := staleWorld.bind ["var", "old.pid"] (.hardLink ["var", "lib", "dex", "dex.pid"])

/-! ## Lemmas on `filepath.Clean` -/

theorem backtrack_ge (out : List Char) (dd w : Nat) (h : dd ≤ w) : dd ≤ backtrack out dd w := by
  induction w with
  | zero => simpa [backtrack] using h
  | succ w ih =>
    unfold backtrack
    split
    · rename_i hc
      simp at hc
      exact ih (by omega)
    · exact h

/-- The loop of `Clean` ends within as many iterations as there are unread bytes. -/
theorem cleanLoop_isSome (rooted : Bool) (fuel : Nat) :
    ∀ (rest out : List Char) (dd : Nat), rest.length ≤ fuel →
      (cleanLoop rooted fuel rest out dd).isSome = true := by
  induction fuel with
  | zero =>
    intro rest out dd h
    cases rest with
    | nil => simp [cleanLoop]
    | cons c cs => simp at h
  | succ fuel ih =>
    intro rest out dd h
    cases rest with
    | nil => simp [cleanLoop]
    | cons c cs =>
      have hcs : cs.length ≤ fuel := by simpa using h
      have htl : cs.tail.length ≤ fuel := by
        have := List.length_tail cs
        omega
      unfold cleanLoop
      split
      · exact ih _ _ _ hcs
      · split
        · exact ih _ _ _ hcs
        · split
          · split
            · exact ih _ _ _ htl
            · split
              · exact ih _ _ _ htl
              · exact ih _ _ _ htl
          · apply ih
            rename_i hsep _ _
            simp only [List.dropWhile_cons]
            simp [hsep]
            exact le_trans (List.dropWhile_sublist _).length_le hcs

theorem head?_take_of_pos (l : List Char) (k : Nat) (hk : 1 ≤ k) : (l.take k).head? = l.head? := by
  cases l with
  | nil => simp
  | cons a t =>
    cases k with
    | zero => omega
    | succ k => simp

theorem head?_append_of_head? (l m : List Char) (a : Char) (h : l.head? = some a) :
    (l ++ m).head? = some a := by
  cases l with
  | nil => simp at h
  | cons b t => simpa using h

/-- In rooted mode the output keeps its leading separator. -/
theorem cleanLoop_rooted_head (fuel : Nat) :
    ∀ (rest out res : List Char), cleanLoop true fuel rest out 1 = some res →
      out.head? = some '/' → res.head? = some '/' := by
  induction fuel with
  | zero =>
    intro rest out res h ho
    cases rest with
    | nil => simp [cleanLoop] at h; subst h; exact ho
    | cons c cs => simp [cleanLoop] at h
  | succ fuel ih =>
    intro rest out res h ho
    cases rest with
    | nil => simp [cleanLoop] at h; subst h; exact ho
    | cons c cs =>
      unfold cleanLoop at h
      split at h
      · exact ih _ _ _ h ho
      · split at h
        · exact ih _ _ _ h ho
        · split at h
          · split at h
            · rename_i hlen
              refine ih _ _ _ h ?_
              rw [head?_take_of_pos _ _ (backtrack_ge _ _ _ (by omega))]
              exact ho
            · simp at h
              exact ih _ _ _ h ho
          · refine ih _ _ _ h ?_
            apply head?_append_of_head?
            split
            · exact head?_append_of_head? _ _ _ ho
            · exact ho

/-- In unrooted mode the output never starts with a separator. -/
theorem cleanLoop_unrooted_head (fuel : Nat) :
    ∀ (rest out res : List Char) (dd : Nat), cleanLoop false fuel rest out dd = some res →
      out.head? ≠ some '/' → res.head? ≠ some '/' := by
  induction fuel with
  | zero =>
    intro rest out res dd h ho
    cases rest with
    | nil => simp [cleanLoop] at h; subst h; exact ho
    | cons c cs => simp [cleanLoop] at h
  | succ fuel ih =>
    intro rest out res dd h ho
    cases rest with
    | nil => simp [cleanLoop] at h; subst h; exact ho
    | cons c cs =>
      unfold cleanLoop at h
      split at h
      · exact ih _ _ _ _ h ho
      · split at h
        · exact ih _ _ _ _ h ho
        · split at h
          · split at h
            · refine ih _ _ _ _ h ?_
              cases out with
              | nil => simp
              | cons a t =>
                generalize backtrack (a :: t) dd ((a :: t).length - 1) = k
                cases k with
                | zero => simp
                | succ k => simpa using ho
            · simp at h
              refine ih _ _ _ _ h ?_
              cases out with
              | nil => simp
              | cons a t => simpa using ho
          · rename_i hsep _ _
            refine ih _ _ _ _ h ?_
            cases out with
            | nil =>
              simp only [List.takeWhile_cons]
              simp [hsep]
              intro hc
              simp [IsPathSeparator, hc] at hsep
            | cons a t =>
              split
              · simpa using ho
              · simpa using ho

/-- Go `Clean` keeps a path absolute and keeps a path relative. -/
theorem IsAbs_Clean (s : String) : IsAbs (Clean s) = IsAbs s := by
  rcases s with ⟨l⟩
  cases l with
  | nil => simp [Clean, cleanChars, IsAbs]
  | cons c cs =>
    by_cases hc : IsPathSeparator c = true
    · have hsome := cleanLoop_isSome true (c :: cs).length cs ['/'] 1 (by simp)
      obtain ⟨res, hres⟩ := Option.isSome_iff_exists.mp hsome
      have hhead := cleanLoop_rooted_head _ _ _ _ hres (by simp)
      rw [List.length_cons] at hres
      have hc' : c = '/' := by simpa [IsPathSeparator] using hc
      cases res with
      | nil => simp at hhead
      | cons a t =>
        simp at hhead
        subst hc'
        have h1 : IsPathSeparator '/' = true := rfl
        simp [Clean, cleanChars, IsAbs, h1, hres, hhead]
    · have hsome := cleanLoop_isSome false (c :: cs).length (c :: cs) [] 0 (by simp)
      obtain ⟨res, hres⟩ := Option.isSome_iff_exists.mp hsome
      have hhead := cleanLoop_unrooted_head _ _ _ _ _ hres (by simp)
      rw [List.length_cons] at hres
      have hc' : ¬ c = '/' := by simpa [IsPathSeparator] using hc
      cases res with
      | nil => simp [Clean, cleanChars, IsAbs, hc, hres, hc']
      | cons a t =>
        simp at hhead
        simp [Clean, cleanChars, IsAbs, hc, hres, hhead, hc']

theorem IsAbs_append_of_ne_empty (r t : String) (h : r ≠ "") : IsAbs (r ++ t) = IsAbs r := by
  rcases r with ⟨l⟩
  cases l with
  | nil => exact absurd rfl h
  | cons c cs => simp [IsAbs, String.data_append]

/-- The result of `rootify` is absolute exactly when the path or the root is. -/
theorem IsAbs_rootify (p r : String) : IsAbs (rootify p r) = (IsAbs p || IsAbs r) := by
  by_cases hp : IsAbs p = true
  · simp [rootify, hp]
  · have hp' : IsAbs p = false := by simpa using hp
    by_cases hr : r = ""
    · by_cases hpe : p = ""
      · subst hr; subst hpe
        simp [rootify, Join, IsAbs]
      · subst hr
        simp [rootify, hp', Join, hpe, stringsJoin, IsAbs_Clean]
        simp [IsAbs]
    · simp [rootify, hp', Join, hr, stringsJoin, IsAbs_Clean]
      rw [String.append_assoc, IsAbs_append_of_ne_empty _ _ hr]

/-! ## More lemmas on `filepath.Clean`: the iteration bound and trailing separators -/

/-- Once the bound covers the unread input, a larger bound changes nothing. -/
theorem cleanLoop_succ (rooted : Bool) (fuel : Nat) :
    ∀ (rest out : List Char) (dd : Nat), rest.length ≤ fuel →
      cleanLoop rooted (fuel + 1) rest out dd = cleanLoop rooted fuel rest out dd := by
  induction fuel with
  | zero =>
    intro rest out dd h
    cases rest with
    | nil => simp [cleanLoop]
    | cons c cs => simp at h
  | succ fuel ih =>
    intro rest out dd h
    cases rest with
    | nil => simp [cleanLoop]
    | cons c cs =>
      have hcs : cs.length ≤ fuel := by simpa using h
      have htl : cs.tail.length ≤ fuel := by
        have := List.length_tail cs
        omega
      by_cases hsep : IsPathSeparator c = true
      · rw [cleanLoop, cleanLoop]
        simp only [hsep, if_true, ih _ _ _ hcs]
      · have hdw : ((c :: cs).dropWhile (fun x => !IsPathSeparator x)).length ≤ fuel := by
          simp only [List.dropWhile_cons]
          simp [hsep]
          exact le_trans (List.dropWhile_sublist _).length_le hcs
        rw [cleanLoop, cleanLoop]
        simp only [ih _ _ _ hcs, ih _ _ _ htl, ih _ _ _ hdw]

theorem cleanLoop_fuel (rooted : Bool) (extra : Nat) (rest out : List Char) (dd : Nat) :
    cleanLoop rooted (rest.length + extra) rest out dd = cleanLoop rooted rest.length rest out dd := by
  induction extra with
  | zero => rfl
  | succ k ih =>
    rw [← Nat.add_assoc, cleanLoop_succ _ _ _ _ _ (by omega), ih]

theorem atEndOrSep_append_sep (l : List Char) : atEndOrSep (l ++ ['/']) = atEndOrSep l := by
  cases l with
  | nil => rfl
  | cons a t => rfl

theorem takeWhile_append_sep (l : List Char) :
    (l ++ ['/']).takeWhile (fun x => !IsPathSeparator x) = l.takeWhile (fun x => !IsPathSeparator x) := by
  induction l with
  | nil => rfl
  | cons a t ih =>
    simp only [List.cons_append, List.takeWhile_cons, ih]

theorem dropWhile_append_sep (l : List Char) :
    (l ++ ['/']).dropWhile (fun x => !IsPathSeparator x)
      = l.dropWhile (fun x => !IsPathSeparator x) ++ ['/'] := by
  induction l with
  | nil => rfl
  | cons a t ih =>
    simp only [List.cons_append, List.dropWhile_cons, ih]
    split <;> rfl

/-- A separator at the end of the unread input does not change what the loop writes. -/
theorem cleanLoop_append_sep (rooted : Bool) (fuel : Nat) :
    ∀ (rest out : List Char) (dd : Nat), rest.length < fuel →
      cleanLoop rooted fuel (rest ++ ['/']) out dd = cleanLoop rooted fuel rest out dd := by
  induction fuel with
  | zero => intro rest out dd h; omega
  | succ fuel ih =>
    intro rest out dd h
    cases rest with
    | nil =>
      have hs : IsPathSeparator '/' = true := rfl
      simp [cleanLoop, hs]
    | cons c cs =>
      have hcs : cs.length < fuel := by simpa using h
      by_cases hsep : IsPathSeparator c = true
      · rw [List.cons_append, cleanLoop, cleanLoop]
        simp only [hsep, if_true, ih _ _ _ hcs]
      · have hdw : ((c :: cs).dropWhile (fun x => !IsPathSeparator x)).length < fuel := by
          simp only [List.dropWhile_cons]
          simp [hsep]
          exact lt_of_le_of_lt (List.dropWhile_sublist _).length_le hcs
        have e1 : (c :: (cs ++ ['/'])).dropWhile (fun x => !IsPathSeparator x)
            = (c :: cs).dropWhile (fun x => !IsPathSeparator x) ++ ['/'] :=
          dropWhile_append_sep (c :: cs)
        have e2 : (c :: (cs ++ ['/'])).takeWhile (fun x => !IsPathSeparator x)
            = (c :: cs).takeWhile (fun x => !IsPathSeparator x) :=
          takeWhile_append_sep (c :: cs)
        rw [List.cons_append, cleanLoop, cleanLoop, e1, e2, atEndOrSep_append_sep,
          ih _ _ _ hcs, ih _ _ _ hdw]
        cases cs with
        | nil => simp [atEndOrSep]
        | cons a t =>
          have htl : t.length < fuel := by
            simp at hcs
            omega
          simp only [List.cons_append, List.head?_cons, List.tail_cons, atEndOrSep_append_sep,
            ih _ _ _ htl]

/-- Cleaning ignores a separator added at the end of a non-empty path. -/
theorem cleanChars_append_sep (l : List Char) (h : l ≠ []) :
    cleanChars (l ++ ['/']) = cleanChars l := by
  cases l with
  | nil => exact absurd rfl h
  | cons c cs =>
    have e1 : cleanLoop true (c :: (cs ++ ['/'])).length (cs ++ ['/']) ['/'] 1
        = cleanLoop true (c :: cs).length cs ['/'] 1 := by
      rw [show (c :: (cs ++ ['/'])).length = (c :: cs).length + 1 by simp,
        cleanLoop_append_sep _ _ _ _ _ (by simp; omega), cleanLoop_succ _ _ _ _ _ (by simp)]
    have e2 : cleanLoop false (c :: (cs ++ ['/'])).length (c :: (cs ++ ['/'])) [] 0
        = cleanLoop false (c :: cs).length (c :: cs) [] 0 := by
      rw [show (c :: (cs ++ ['/'])).length = (c :: cs).length + 1 by simp,
        show c :: (cs ++ ['/']) = (c :: cs) ++ ['/'] from rfl,
        cleanLoop_append_sep _ _ _ _ _ (by simp), cleanLoop_succ _ _ _ _ _ (by simp)]
    cases hsep : IsPathSeparator c with
    | true => simp only [cleanChars, List.cons_append, hsep, if_true, e1]
    | false => simp only [cleanChars, List.cons_append, hsep, Bool.false_eq_true, if_false, e2]

/-- Go `Clean` ignores a separator added at the end of a non-empty path. -/
theorem Clean_append_sep (r : String) (h : r ≠ "") : Clean (r ++ "/") = Clean r := by
  rcases r with ⟨l⟩
  have hl : l ≠ [] := by
    intro hl
    subst hl
    exact h rfl
  simp only [Clean, String.data_append]
  exact congrArg String.mk (cleanChars_append_sep l hl)

/-! ## Lemmas on the decimal text -/

theorem digitChar_isDigit (d : Nat) (h : d < 10) : (Nat.digitChar d).isDigit = true := by
  interval_cases d <;> rfl

theorem toDigitsCore_isDigit (fuel : Nat) :
    ∀ (n : Nat) (ds : List Char), (∀ c ∈ ds, c.isDigit = true) →
      ∀ c ∈ Nat.toDigitsCore 10 fuel n ds, c.isDigit = true := by
  induction fuel with
  | zero => intro n ds h; simpa [Nat.toDigitsCore] using h
  | succ fuel ih =>
    intro n ds h
    have hd : ∀ c ∈ Nat.digitChar (n % 10) :: ds, c.isDigit = true := by
      intro c hc
      rcases List.mem_cons.mp hc with hc | hc
      · rw [hc]; exact digitChar_isDigit _ (Nat.mod_lt _ (by decide))
      · exact h c hc
    unfold Nat.toDigitsCore
    simp only []
    split
    · exact hd
    · exact ih _ _ hd

/-- The text `fmt.Sprintf("%d", n)` consists of decimal digits only. -/
theorem sprintfD_isDigit (n : Nat) : ∀ c ∈ (sprintfD n).data, c.isDigit = true := by
  have := toDigitsCore_isDigit (n + 1) n [] (by simp)
  simpa [sprintfD, Nat.repr, Nat.toDigits, List.asString] using this

theorem digitChar_toNat (d : Nat) (h : d < 10) : (Nat.digitChar d).toNat - '0'.toNat = d := by
  interval_cases d <;> rfl

theorem toDigitsCore_value (fuel : Nat) :
    ∀ (n : Nat) (ds : List Char), n < fuel →
      (Nat.toDigitsCore 10 fuel n ds).foldl (fun acc c => 10 * acc + (c.toNat - '0'.toNat)) 0
        = ds.foldl (fun acc c => 10 * acc + (c.toNat - '0'.toNat)) n := by
  induction fuel with
  | zero => intro n ds h; omega
  | succ fuel ih =>
    intro n ds h
    unfold Nat.toDigitsCore
    simp only []
    split
    · rename_i h0
      have hn : n % 10 = n := by omega
      simp only [List.foldl_cons, Nat.mul_zero, Nat.zero_add,
        digitChar_toNat _ (Nat.mod_lt n (by decide))]
      rw [hn]
    · rename_i h0
      rw [ih (n / 10) _ (by omega)]
      simp only [List.foldl_cons, digitChar_toNat _ (Nat.mod_lt n (by decide))]
      congr 1
      omega

/-- The text `fmt.Sprintf("%d", n)` denotes `n` in base ten. -/
theorem decimalValue_sprintfD (n : Nat) : decimalValue (sprintfD n) = n := by
  have := toDigitsCore_value (n + 1) n [] (by omega)
  simpa [decimalValue, sprintfD, Nat.repr, Nat.toDigits, List.asString] using this

/-! ## Lemmas on the world -/

/-- Putting a regular file where there was none, or another regular file,
changes no resolution except those that lead to that very place. -/
theorem walkWith_stable (nodes nodes' : List (Loc × Node)) (l : Loc) (d' : String) (rw' : Bool)
    (H1 : ∀ loc, loc ≠ l → nodes'.lookup loc = nodes.lookup loc)
    (H2 : nodes'.lookup l = some (.file d' rw'))
    (H3 : nodes.lookup l = none ∨ ∃ d rw, nodes.lookup l = some (.file d rw))
    (follow follow' : Loc → List String → Except Errno Resolved)
    (hf : ∀ cur comps r, follow cur comps = .ok r →
      follow' cur comps = Resolved.after l (.file d' rw') r) :
    ∀ (comps : List String) (cur : Loc) (r : Resolved),
      walkWith nodes follow cur comps = .ok r →
      walkWith nodes' follow' cur comps = Resolved.after l (.file d' rw') r := by
  intro comps
  induction comps with
  | nil =>
    intro cur r h
    simp only [walkWith] at h ⊢
    cases hl : nodes.lookup cur with
    | none => simp [hl] at h
    | some n =>
      simp only [hl, Except.ok.injEq] at h
      subst h
      by_cases hc : cur = l
      · subst hc
        simp [H2, Resolved.after]
      · simp [H1 cur hc, hl, Resolved.after, hc]
  | cons c rest ih =>
    intro cur r h
    rw [walkWith] at h ⊢
    by_cases hskip : c = ""
    · simp only [hskip, if_true] at h ⊢
      exact ih _ _ h
    · simp only [hskip, if_false] at h ⊢
      cases hl : nodes.lookup cur with
      | none => simp [hl] at h
      | some n =>
        cases n with
        | file d rw => simp [hl] at h
        | link t => simp [hl] at h
        | hardLink p => simp [hl] at h
        | dir s wr =>
          have hcur : cur ≠ l := by
            intro e
            subst e
            rcases H3 with h3 | ⟨d, rw, h3⟩ <;> simp [h3] at hl
          rw [H1 cur hcur, hl]
          simp only [hl] at h
          cases s with
          | false => simp at h
          | true =>
            simp only [Bool.not_true, Bool.false_eq_true, if_false] at h ⊢
            by_cases hdot : c = "."
            · simp only [hdot, if_true] at h ⊢
              exact ih _ _ h
            · simp only [hdot, if_false] at h ⊢
              by_cases hdd : c = ".."
              · simp only [hdd, if_true] at h ⊢
                exact ih _ _ h
              · simp only [hdd, if_false] at h ⊢
                by_cases hlen : c.utf8ByteSize > 255
                · simp [hlen] at h
                · simp only [hlen, if_false] at h ⊢
                  by_cases ht : cur ++ [c] = l
                  · rw [ht] at h ⊢
                    rw [H2]
                    rcases H3 with h3 | ⟨d, rw, h3⟩
                    · simp only [h3] at h
                      by_cases hr : rest = []
                      · simp only [hr, if_true, Except.ok.injEq] at h ⊢
                        subst h
                        simp [Resolved.after]
                      · simp only [hr, if_false] at h ⊢
                        by_cases hall : rest.all (fun x => x = "") = true
                        · simp only [hall, if_true, Except.ok.injEq] at h
                          subst h
                          simp [Resolved.after]
                        · simp [hall] at h
                    · simp only [h3] at h
                      by_cases hr : rest = []
                      · simp only [hr, if_true, Except.ok.injEq] at h ⊢
                        subst h
                        simp [Resolved.after]
                      · simp [hr] at h
                  · rw [H1 _ ht]
                    cases hn : nodes.lookup (cur ++ [c]) with
                    | none =>
                      simp only [hn] at h ⊢
                      by_cases hr : rest = []
                      · simp only [hr, if_true, Except.ok.injEq] at h ⊢
                        subst h
                        simp [Resolved.after, ht]
                      · simp only [hr, if_false] at h ⊢
                        by_cases hall : rest.all (fun x => x = "") = true
                        · simp only [hall, if_true, Except.ok.injEq] at h ⊢
                          subst h
                          simp [Resolved.after, ht]
                        · simp [hall] at h
                    | some n =>
                      cases n with
                      | file d rw =>
                        simp only [hn] at h ⊢
                        by_cases hr : rest = []
                        · simp only [hr, if_true, Except.ok.injEq] at h ⊢
                          subst h
                          simp [Resolved.after, ht]
                        · simp [hr] at h
                      | link t =>
                        simp only [hn] at h ⊢
                        by_cases hte : t = ""
                        · simp [hte] at h
                        · simp only [hte, if_false] at h ⊢
                          exact hf _ _ _ h
                      | hardLink p =>
                        simp only [hn] at h ⊢
                        by_cases hp : p = l
                        · rw [hp] at h ⊢
                          rw [H2]
                          rcases H3 with h3 | ⟨d, rw, h3⟩
                          · simp [h3] at h
                          · simp only [h3] at h
                            by_cases hr : rest = []
                            · simp only [hr, if_true, Except.ok.injEq] at h ⊢
                              subst h
                              simp [Resolved.after]
                            · simp [hr] at h
                        · rw [H1 _ hp]
                          cases hpn : nodes.lookup p with
                          | none => simp [hpn] at h
                          | some pn =>
                            cases pn with
                            | file d rw =>
                              simp only [hpn] at h ⊢
                              by_cases hr : rest = []
                              · simp only [hr, if_true, Except.ok.injEq] at h ⊢
                                subst h
                                simp [Resolved.after, hp]
                              · simp [hr] at h
                            | dir s3 w3 => simp [hpn] at h
                            | link t => simp [hpn] at h
                            | hardLink p2 => simp [hpn] at h
                      | dir s2 w2 =>
                        simp only [hn] at h ⊢
                        exact ih _ _ h

theorem walk_stable (nodes nodes' : List (Loc × Node)) (l : Loc) (d' : String) (rw' : Bool)
    (H1 : ∀ loc, loc ≠ l → nodes'.lookup loc = nodes.lookup loc)
    (H2 : nodes'.lookup l = some (.file d' rw'))
    (H3 : nodes.lookup l = none ∨ ∃ d rw, nodes.lookup l = some (.file d rw)) :
    ∀ (links : Nat) (cur : Loc) (comps : List String) (r : Resolved),
      walk nodes links cur comps = .ok r →
      walk nodes' links cur comps = Resolved.after l (.file d' rw') r := by
  intro links
  induction links with
  | zero =>
    intro cur comps r h
    exact walkWith_stable nodes nodes' l d' rw' H1 H2 H3 _ _ (by intro _ _ _ h; simp at h) _ _ _ h
  | succ k ih =>
    intro cur comps r h
    exact walkWith_stable nodes nodes' l d' rw' H1 H2 H3 _ _ ih _ _ _ h

theorem resolveIn_stable (nodes nodes' : List (Loc × Node)) (l : Loc) (d' : String) (rw' : Bool)
    (H1 : ∀ loc, loc ≠ l → nodes'.lookup loc = nodes.lookup loc)
    (H2 : nodes'.lookup l = some (.file d' rw'))
    (H3 : nodes.lookup l = none ∨ ∃ d rw, nodes.lookup l = some (.file d rw))
    (cwd : Loc) (name : String) (r : Resolved) (h : resolveIn nodes cwd name = .ok r) :
    resolveIn nodes' cwd name = Resolved.after l (.file d' rw') r := by
  unfold resolveIn at h ⊢
  by_cases h1 : name = ""
  · simp [h1] at h
  · simp only [h1, if_false] at h ⊢
    by_cases h2 : name.utf8ByteSize ≥ 4096
    · simp [h2] at h
    · simp only [h2, if_false] at h ⊢
      exact walk_stable nodes nodes' l d' rw' H1 H2 H3 _ _ _ _ h

/-- What the path walk reports is what the tree holds. -/
theorem walkWith_agrees (nodes : List (Loc × Node))
    (follow : Loc → List String → Except Errno Resolved)
    (hf : ∀ cur comps r, follow cur comps = .ok r → r.agrees nodes) :
    ∀ (comps : List String) (cur : Loc) (r : Resolved),
      walkWith nodes follow cur comps = .ok r → r.agrees nodes := by
  intro comps
  induction comps with
  | nil =>
    intro cur r h
    simp only [walkWith] at h
    cases hl : nodes.lookup cur with
    | none => simp [hl] at h
    | some n =>
      simp only [hl, Except.ok.injEq] at h
      subst h
      exact hl
  | cons c rest ih =>
    intro cur r h
    rw [walkWith] at h
    by_cases hskip : c = ""
    · simp only [hskip, if_true] at h
      exact ih _ _ h
    · simp only [hskip, if_false] at h
      cases hl : nodes.lookup cur with
      | none => simp [hl] at h
      | some n =>
        cases n with
        | file d rw => simp [hl] at h
        | link t => simp [hl] at h
        | hardLink p => simp [hl] at h
        | dir s wr =>
          simp only [hl] at h
          cases s with
          | false => simp at h
          | true =>
            simp only [Bool.not_true, Bool.false_eq_true, if_false] at h
            by_cases hdot : c = "."
            · simp only [hdot, if_true] at h
              exact ih _ _ h
            · simp only [hdot, if_false] at h
              by_cases hdd : c = ".."
              · simp only [hdd, if_true] at h
                exact ih _ _ h
              · simp only [hdd, if_false] at h
                by_cases hlen : c.utf8ByteSize > 255
                · simp [hlen] at h
                · simp only [hlen, if_false] at h
                  cases hn : nodes.lookup (cur ++ [c]) with
                  | none =>
                    simp only [hn] at h
                    by_cases hr : rest = []
                    · simp only [hr, if_true, Except.ok.injEq] at h
                      subst h
                      exact hn
                    · simp only [hr, if_false] at h
                      by_cases hall : rest.all (fun x => x = "") = true
                      · simp only [hall, if_true, Except.ok.injEq] at h
                        subst h
                        exact hn
                      · simp [hall] at h
                  | some n =>
                    cases n with
                    | file d rw =>
                      simp only [hn] at h
                      by_cases hr : rest = []
                      · simp only [hr, if_true, Except.ok.injEq] at h
                        subst h
                        exact hn
                      · simp [hr] at h
                    | link t =>
                      simp only [hn] at h
                      by_cases hte : t = ""
                      · simp [hte] at h
                      · simp only [hte, if_false] at h
                        exact hf _ _ _ h
                    | hardLink p =>
                      simp only [hn] at h
                      cases hpn : nodes.lookup p with
                      | none => simp [hpn] at h
                      | some pn =>
                        cases pn with
                        | file d rw =>
                          simp only [hpn] at h
                          by_cases hr : rest = []
                          · simp only [hr, if_true, Except.ok.injEq] at h
                            subst h
                            exact hpn
                          · simp [hr] at h
                        | dir s3 w3 => simp [hpn] at h
                        | link t => simp [hpn] at h
                        | hardLink p2 => simp [hpn] at h
                    | dir s2 w2 =>
                      simp only [hn] at h
                      exact ih _ _ h

theorem walk_agrees (nodes : List (Loc × Node)) :
    ∀ (links : Nat) (cur : Loc) (comps : List String) (r : Resolved),
      walk nodes links cur comps = .ok r → r.agrees nodes := by
  intro links
  induction links with
  | zero =>
    intro cur comps r h
    exact walkWith_agrees nodes _ (by intro _ _ _ h; simp at h) _ _ _ h
  | succ k ih =>
    intro cur comps r h
    exact walkWith_agrees nodes _ ih _ _ _ h

theorem resolve_agrees (w : World) (name : String) (r : Resolved)
    (h : w.resolve name = .ok r) : r.agrees w.nodes := by
  unfold World.resolve resolveIn at h
  by_cases h1 : name = ""
  · simp [h1] at h
  · simp only [h1, if_false] at h
    by_cases h2 : name.utf8ByteSize ≥ 4096
    · simp [h2] at h
    · simp only [h2, if_false] at h
      exact walk_agrees _ _ _ _ _ h

theorem World.node_bind (w : World) (loc q : Loc) (n : Node) :
    (w.bind loc n).node q = if q = loc then some n else w.node q := by
  by_cases h : q = loc
  · simp [World.node, World.bind, List.lookup, h]
  · have hb : (q == loc) = false := by simpa using h
    simp [World.node, World.bind, List.lookup_cons, h, hb]

/-- What a successful `os.Create` has done: the handle is the place the name
led to, where there was nothing or a regular file open to this process; an
empty regular file is there now, and nothing else has changed. -/
theorem osCreate_ok (w w1 : World) (name : String) (fd : Loc)
    (h : osCreate w name = .ok (w1, fd)) :
    (w.resolve name = .ok (.absent fd false) ∨ ∃ d, w.resolve name = .ok (.found fd (.file d true))) ∧
    w1.node fd = some (.file "" true) ∧
    (∀ loc, loc ≠ fd → w1.node loc = w.node loc) ∧
    w1.pid = w.pid ∧ w1.cwd = w.cwd ∧ w1.statFault = w.statFault := by
  unfold osCreate at h
  cases hcf : w.createFault with
  | some e => simp [hcf] at h
  | none =>
    simp only [hcf] at h
    cases hr : w.resolve name with
    | error e => simp [hr] at h
    | ok r =>
      simp only [hr] at h
      cases r with
      | found loc n =>
        cases n with
        | dir s wr => simp at h
        | link t => simp at h
        | hardLink p => simp at h
        | file d rw =>
          cases rw with
          | false => simp at h
          | true =>
            simp only [if_true, Except.ok.injEq, Prod.mk.injEq] at h
            obtain ⟨h1, h2⟩ := h
            subst h2
            subst h1
            refine ⟨Or.inr ⟨d, rfl⟩, ?_, ?_, rfl, rfl, rfl⟩
            · exact (World.node_bind w loc loc _).trans (by simp)
            · intro q hq
              exact (World.node_bind w loc q _).trans (by simp [hq])
      | absent loc slash =>
        cases slash with
        | true => simp at h
        | false =>
          simp only at h
          split at h
          · simp only [Except.ok.injEq, Prod.mk.injEq] at h
            obtain ⟨h1, h2⟩ := h
            subst h2
            subst h1
            refine ⟨Or.inl rfl, ?_, ?_, rfl, rfl, rfl⟩
            · exact (World.node_bind w loc loc _).trans (by simp)
            · intro q hq
              exact (World.node_bind w loc q _).trans (by simp [hq])
          · simp at h

/-- What a successful `WriteString` has done: the file behind the handle
starts with the text, and nothing else has changed. -/
theorem WriteString_ok (w w3 : World) (name : String) (fd : Loc) (s : String)
    (h : WriteString w name fd s = .ok w3) :
    (∃ d rw, w.node fd = some (.file d rw) ∧
      w3.node fd = some (.file (s ++ ⟨d.data.drop s.length⟩) rw)) ∧
    (∀ loc, loc ≠ fd → w3.node loc = w.node loc) ∧
    w3.pid = w.pid ∧ w3.cwd = w.cwd ∧ w3.statFault = w.statFault := by
  unfold WriteString at h
  cases hwf : w.writeFault with
  | some e => simp [hwf] at h
  | none =>
    simp only [hwf] at h
    cases hn : w.node fd with
    | none => simp [hn] at h
    | some n =>
      cases n with
      | dir s2 wr => simp [hn] at h
      | link t => simp [hn] at h
      | hardLink p => simp [hn] at h
      | file d rw =>
        simp only [hn] at h
        by_cases hs : s.utf8ByteSize ≤ w.free
        · simp only [hs, if_true, Except.ok.injEq] at h
          subst h
          refine ⟨⟨d, rw, rfl, ?_⟩, ?_, rfl, rfl, rfl⟩
          · exact (World.node_bind w fd fd _).trans (by simp)
          · intro q hq
            exact (World.node_bind w fd q _).trans (by simp [hq])
        · simp [hs] at h

/-- Resolution in a world that differs from another only by a regular file at
one place, where the other had nothing or a regular file. -/
theorem resolve_after (w w' : World) (l : Loc) (d' : String) (rw' : Bool)
    (hcwd : w'.cwd = w.cwd)
    (H1 : ∀ loc, loc ≠ l → w'.node loc = w.node loc)
    (H2 : w'.node l = some (.file d' rw'))
    (H3 : w.node l = none ∨ ∃ d rw, w.node l = some (.file d rw))
    (name : String) (r : Resolved) (h : w.resolve name = .ok r) :
    w'.resolve name = Resolved.after l (.file d' rw') r := by
  unfold World.resolve at h ⊢
  rw [hcwd]
  exact resolveIn_stable w.nodes w'.nodes l d' rw' H1 H2 H3 _ _ _ h

theorem Resolved.after_of_ne (l : Loc) (newn : Node) (r : Resolved) (hne : r.loc ≠ l) :
    Resolved.after l newn r = .ok r := by
  cases r with
  | found x n =>
    have : x ≠ l := hne
    simp [Resolved.after, this]
  | absent x s =>
    have : x ≠ l := hne
    simp [Resolved.after, this]

/-- The effect of a successful `os.Create` followed by a successful
`WriteString` of `s` through the returned handle, with output to stdout in
between: the name now leads to a regular file holding exactly `s`, every other
place is as before, and every resolution is as before except at that place. -/
theorem create_write_effect (w0 w1 w3 : World) (name msg s : String) (fd : Loc)
    (hc : osCreate w0 name = .ok (w1, fd))
    (hw : WriteString (Printf w1 msg) name fd s = .ok w3) :
    w3.node fd = some (.file s true) ∧
    (∀ loc, loc ≠ fd → w3.node loc = w0.node loc) ∧
    w3.resolve name = .ok (.found fd (.file s true)) ∧
    (∀ q r, w0.resolve q = .ok r → w3.resolve q = Resolved.after fd (.file s true) r) ∧
    w3.statFault = w0.statFault := by
  obtain ⟨hres, hn1, hfr1, _, hcwd1, hsf1⟩ := osCreate_ok w0 w1 name fd hc
  obtain ⟨⟨d, rw, hd, hn3⟩, hfr3, _, hcwd3, hsf3⟩ := WriteString_ok _ w3 name fd s hw
  have hd' : (Printf w1 msg).node fd = w1.node fd := rfl
  rw [hd', hn1] at hd
  simp only [Option.some.injEq, Node.file.injEq] at hd
  obtain ⟨hd1, hd2⟩ := hd
  subst hd1
  subst hd2
  have hs : s ++ (⟨("" : String).data.drop s.length⟩ : String) = s := by
    apply String.ext
    simp
  rw [hs] at hn3
  have hfr : ∀ loc, loc ≠ fd → w3.node loc = w0.node loc := by
    intro loc hl
    rw [hfr3 loc hl]
    exact hfr1 loc hl
  have H3 : w0.node fd = none ∨ ∃ d rw, w0.node fd = some (.file d rw) := by
    rcases hres with h | ⟨d, h⟩
    · exact Or.inl (resolve_agrees w0 name _ h)
    · exact Or.inr ⟨d, true, resolve_agrees w0 name _ h⟩
  have hcwd : w3.cwd = w0.cwd := by
    rw [hcwd3]
    exact hcwd1
  have hall : ∀ q r, w0.resolve q = .ok r →
      w3.resolve q = Resolved.after fd (.file s true) r :=
    fun q r h => resolve_after w0 w3 fd s true hcwd hfr hn3 H3 q r h
  refine ⟨hn3, hfr, ?_, hall, ?_⟩
  · rcases hres with h | ⟨d, h⟩
    · rw [hall name _ h]
      simp [Resolved.after]
    · rw [hall name _ h]
      simp [Resolved.after]
  · rw [hsf3]
    exact hsf1

/-- The effect of a successful `os.Create` alone, with output to stdout after
it: the same, with an empty file. -/
theorem create_effect (w0 w1 : World) (name msg : String) (fd : Loc)
    (hc : osCreate w0 name = .ok (w1, fd)) :
    (∀ loc, loc ≠ fd → (Printf w1 msg).node loc = w0.node loc) ∧
    (∀ q r, w0.resolve q = .ok r →
      (Printf w1 msg).resolve q = Resolved.after fd (.file "" true) r) ∧
    w0.place name = some fd := by
  obtain ⟨hres, hn1, hfr1, _, hcwd1, _⟩ := osCreate_ok w0 w1 name fd hc
  have H3 : w0.node fd = none ∨ ∃ d rw, w0.node fd = some (.file d rw) := by
    rcases hres with h | ⟨d, h⟩
    · exact Or.inl (resolve_agrees w0 name _ h)
    · exact Or.inr ⟨d, true, resolve_agrees w0 name _ h⟩
  refine ⟨fun loc hl => hfr1 loc hl, ?_, ?_⟩
  · intro q r h
    exact resolve_after w0 (Printf w1 msg) fd "" true hcwd1 (fun loc hl => hfr1 loc hl) hn1 H3 q r h
  · rcases hres with h | ⟨d, h⟩
    · simp [World.place, h, Resolved.loc]
    · simp [World.place, h, Resolved.loc]

theorem SavePidRacing_id (cfg : BaseConfig) (w : World) :
    cfg.SavePidRacing id w = cfg.SavePid w := rfl

/-- When the pre-check passes, `SavePidRacing` is the creation and the write
on the world the other step left. -/
theorem SavePidRacing_of (cfg : BaseConfig) (other : World → World) (w : World) (e : GoError)
    (hstat : osStat w cfg.PidFileDir = some e) (hex : IsExist e = false) :
    cfg.SavePidRacing other w =
      match osCreate (other w) cfg.PidFileDir with
      | .error e1 => (some e1, other w)
      | .ok (w1, fd) =>
        match WriteString (Printf w1 (savePidNotice cfg.PidFileDir w1.pid)) cfg.PidFileDir fd
            (sprintfD w1.pid) with
        | .error e2 => (some e2, Printf w1 (savePidNotice cfg.PidFileDir w1.pid))
        | .ok w3 => (none, w3) := by
  simp [BaseConfig.SavePidRacing, hstat, hex]

/-! ## Path resolution -/

/-- C1: for every absolute path `p` and every root `r`, `rootify p r` is `p`
itself, character for character. -/
theorem C1_rootify_absolute_unchanged (p r : String) (h : IsAbs p = true) :
    rootify p r = p := by
  simp [rootify, h]

/-- Witness of C1 at an absolute path that is not in cleaned form: it comes
back as it went in. -/
theorem C1_rootify_absolute_unchanged_witness :
    IsAbs "/run//./dex.pid" = true ∧ rootify "/run//./dex.pid" "/var/lib/dex" = "/run//./dex.pid" :=
  ⟨by decide, C1_rootify_absolute_unchanged "/run//./dex.pid" "/var/lib/dex" (by decide)⟩

/-- C2: for every relative path `p` and every root `r` (the empty root and the
empty path included), `rootify p r` is `filepath.Join(r, p)`.  Spelled out for
the two elements, the join is the cleaned `r/p` when `r` is not empty, the
cleaned `p` when only `r` is empty, and `""` when both are; unless both are
empty, that is: empty elements dropped, the rest joined with the separator and
cleaned. -/
theorem C2_rootify_relative_join (p r : String) (h : IsAbs p = false) :
    rootify p r = Join [r, p] ∧
    Join [r, p] =
      (if r ≠ "" then Clean (r ++ "/" ++ p) else if p ≠ "" then Clean p else "") ∧
    Join [r, p] = (if r = "" ∧ p = "" then "" else joinAsDescribed [r, p]) := by
  refine ⟨by simp [rootify, h], ?_, ?_⟩
  · by_cases hr : r = ""
    · by_cases hp : p = ""
      · simp [Join, hr, hp]
      · simp [Join, hr, hp, stringsJoin]
    · simp [Join, hr, stringsJoin]
  · by_cases hr : r = ""
    · by_cases hp : p = ""
      · simp [Join, hr, hp]
      · simp [Join, joinAsDescribed, hr, hp, stringsJoin]
    · by_cases hp : p = ""
      · subst hp
        simp [Join, joinAsDescribed, hr, stringsJoin, Clean_append_sep r hr]
      · simp [Join, joinAsDescribed, hr, hp, stringsJoin]

/-- Witness of C2 at the relative path `../logs//today` under `/var/lib/dex`. -/
theorem C2_rootify_relative_join_witness :
    IsAbs "../logs//today" = false ∧
    rootify "../logs//today" "/var/lib/dex" = Join ["/var/lib/dex", "../logs//today"] ∧
    Join ["/var/lib/dex", "../logs//today"] = "/var/lib/logs/today" :=
  ⟨by decide, (C2_rootify_relative_join "../logs//today" "/var/lib/dex" (by decide)).1,
    by decide⟩

/-! ## The pid-file guard -/

/-- C3, as stated, fails.  On `linkWorld` a symbolic link exists at the pid
path; `os.Stat` follows it, finds nothing, and `SavePid` returns nil and
creates the link's target.  On `closedWorld` the pid file of process 31337
exists, `os.Stat` is refused, and the error `SavePid` returns is the
permission error of `os.Create`, not the "is exist" error. -/
theorem C3_counterexample_link_and_closed_directory :
    (linkWorld.node ["var", "lib", "dex", "dex.pid"] = some (.link "run.pid") ∧
     (exampleConfig.SavePid linkWorld).1 = none ∧
     linkWorld.node ["var", "lib", "dex", "run.pid"] = none ∧
     (exampleConfig.SavePid linkWorld).2.node ["var", "lib", "dex", "run.pid"]
       = some (.file "4242" true)) ∧
    (closedWorld.node ["var", "lib", "dex", "dex.pid"] = some (.file "31337" true) ∧
     (exampleConfig.SavePid closedWorld).1
       = some (.pathError "open" "/var/lib/dex/dex.pid" .EACCES)) := by
  decide

/-- C3, amended: when `os.Stat` succeeds on the resolved pid path, that is,
when the path leads (through searchable directories, symbolic links followed)
to an existing file or directory, `SavePid` returns the "is exist" error and
leaves the world as it found it; what the pid path leads to is still there
with the same contents. -/
theorem C3_SavePid_refuses_existing (cfg : BaseConfig) (w : World)
    (h : osStat w cfg.PidFileDir = none) :
    (∃ loc n, w.resolve cfg.PidFileDir = .ok (.found loc n)) ∧
    cfg.SavePid w = (some (.errorf (existMessage cfg.PidFileDir)), w) ∧
    (cfg.SavePid w).2.contents cfg.PidFileDir = w.contents cfg.PidFileDir := by
  have hs : cfg.SavePid w = (some (.errorf (existMessage cfg.PidFileDir)), w) := by
    simp [BaseConfig.SavePid, h]
  refine ⟨?_, hs, by rw [hs]⟩
  unfold osStat at h
  cases hsf : w.statFault with
  | some e => simp [hsf] at h
  | none =>
    simp only [hsf] at h
    cases hr : w.resolve cfg.PidFileDir with
    | error e => simp [hr] at h
    | ok r =>
      cases r with
      | found loc n => exact ⟨loc, n, rfl⟩
      | absent loc s => simp [hr] at h

/-- Witness of C3 (amended): a stale pid file holding 31337 stops process
4242, and stays as it was. -/
theorem C3_SavePid_refuses_existing_witness :
    osStat staleWorld exampleConfig.PidFileDir = none ∧
    exampleConfig.SavePid staleWorld
      = (some (.errorf "/var/lib/dex/dex.pid is exist,SavePid fail"), staleWorld) ∧
    (exampleConfig.SavePid staleWorld).2.contents "/var/lib/dex/dex.pid" = some "31337" :=
  ⟨by decide, (C3_SavePid_refuses_existing exampleConfig staleWorld (by decide)).2.1, by decide⟩

/-- C4, as stated, fails: nothing exists at `/srv/dex/dex.pid`, but neither
does the directory `/srv/dex`, so `os.Create` fails, `SavePid` returns that
error and no file is left at the pid path. -/
theorem C4_counterexample_missing_directory :
    exampleWorld.node ["srv", "dex", "dex.pid"] = none ∧
    BaseConfig.PidFileDir { DefaultBaseConfig with RootDir := "/srv/dex" } = "/srv/dex/dex.pid" ∧
    (BaseConfig.SavePid { DefaultBaseConfig with RootDir := "/srv/dex" } exampleWorld).1
      = some (.pathError "open" "/srv/dex/dex.pid" .ENOENT) ∧
    (BaseConfig.SavePid { DefaultBaseConfig with RootDir := "/srv/dex" } exampleWorld).2.node
      ["srv", "dex", "dex.pid"] = none := by
  decide

/-- C4, amended: when `os.Stat` finds nothing at the resolved pid path (it
fails, and not with an "exists" error) and the creation and the write
succeed, `SavePid` returns nil and afterwards the pid path leads to a regular
file that holds exactly the decimal text of the process id: a text of decimal
digits only, denoting the process id. -/
theorem C4_SavePid_claims_free_path (cfg : BaseConfig) (w w1 w3 : World) (e : GoError)
    (fd : Loc)
    (hstat : osStat w cfg.PidFileDir = some e) (hex : IsExist e = false)
    (hc : osCreate w cfg.PidFileDir = .ok (w1, fd))
    (hw : WriteString (Printf w1 (savePidNotice cfg.PidFileDir w1.pid)) cfg.PidFileDir fd
      (sprintfD w1.pid) = .ok w3) :
    cfg.SavePid w = (none, w3) ∧
    w3.resolve cfg.PidFileDir = .ok (.found fd (.file (sprintfD w.pid) true)) ∧
    (cfg.SavePid w).2.contents cfg.PidFileDir = some (sprintfD w.pid) ∧
    decimalValue (sprintfD w.pid) = w.pid ∧
    (∀ c ∈ (sprintfD w.pid).data, c.isDigit = true) := by
  have hs : cfg.SavePid w = (none, w3) := by
    rw [← SavePidRacing_id, SavePidRacing_of cfg id w e hstat hex]
    simp only [id, hc, hw]
  have hpid : w1.pid = w.pid := (osCreate_ok w w1 _ fd hc).2.2.2.1
  have hres := (create_write_effect w w1 w3 _ _ _ fd hc hw).2.2.1
  rw [hpid] at hres
  refine ⟨hs, hres, ?_, decimalValue_sprintfD _, sprintfD_isDigit _⟩
  rw [hs]
  simp [World.contents, hres]

/-- Witness of C4 (amended): on the example machine process 4242 claims
`/var/lib/dex/dex.pid`, which then holds `4242`. -/
theorem C4_SavePid_claims_free_path_witness :
    (exampleConfig.SavePid exampleWorld).1 = none ∧
    (exampleConfig.SavePid exampleWorld).2.contents "/var/lib/dex/dex.pid" = some "4242" :=
  ⟨congrArg Prod.fst
      (C4_SavePid_claims_free_path exampleConfig exampleWorld
        (exampleWorld.bind ["var", "lib", "dex", "dex.pid"] (.file "" true))
        (exampleConfig.SavePid exampleWorld).2
        (.pathError "stat" "/var/lib/dex/dex.pid" .ENOENT) ["var", "lib", "dex", "dex.pid"]
        (by decide) (by decide) (by decide) (by decide)).1,
    (C4_SavePid_claims_free_path exampleConfig exampleWorld
        (exampleWorld.bind ["var", "lib", "dex", "dex.pid"] (.file "" true))
        (exampleConfig.SavePid exampleWorld).2
        (.pathError "stat" "/var/lib/dex/dex.pid" .ENOENT) ["var", "lib", "dex", "dex.pid"]
        (by decide) (by decide) (by decide) (by decide)).2.2.1⟩

/-- C5, as stated, fails: the pre-check sees no pid file, a competing process
then creates one holding 31337, and the creation step still succeeds: it
truncates the competitor's file, `SavePid` returns nil and the file now holds
4242. -/
theorem C5_counterexample_create_truncates :
    osStat exampleWorld exampleConfig.PidFileDir
      = some (.pathError "stat" "/var/lib/dex/dex.pid" .ENOENT) ∧
    (competitor exampleWorld).contents exampleConfig.PidFileDir = some "31337" ∧
    (osCreate (competitor exampleWorld) exampleConfig.PidFileDir).toBool = true ∧
    (exampleConfig.SavePidRacing competitor exampleWorld).1 = none ∧
    (exampleConfig.SavePidRacing competitor exampleWorld).2.contents exampleConfig.PidFileDir
      = some "4242" := by
  decide

/-- C5, amended: the creation step of `SavePid` is `os.Create`, which creates
or truncates; that a file is already at the pid path does not make it fail.
When the pre-check found nothing and the pid path leads to a regular file at
the moment of creation: if this process may open that file for reading and
writing and the kernel does not refuse the call for another reason, the
creation step succeeds; whenever it succeeds it has emptied that file, and
when the write succeeds too `SavePid` returns nil and the file holds the
decimal text of this process's id; whenever it fails `SavePid` returns that
error and the file is as the other process left it.  With no step in between,
`SavePidRacing` is `SavePid`. -/
theorem C5_create_is_not_exclusive (cfg : BaseConfig) (other : World → World) (w : World)
    (e : GoError) (loc : Loc) (d : String) (rw : Bool)
    (hstat : osStat w cfg.PidFileDir = some e) (hex : IsExist e = false)
    (hrace : (other w).resolve cfg.PidFileDir = .ok (.found loc (.file d rw))) :
    (rw = true → (other w).createFault = none →
      osCreate (other w) cfg.PidFileDir
        = .ok ({ (other w).bind loc (.file "" true) with
                 free := (other w).free + d.utf8ByteSize }, loc)) ∧
    (∀ w1 fd, osCreate (other w) cfg.PidFileDir = .ok (w1, fd) →
      fd = loc ∧ w1.node loc = some (.file "" true) ∧
      ∀ w3, WriteString (Printf w1 (savePidNotice cfg.PidFileDir w1.pid)) cfg.PidFileDir fd
          (sprintfD w1.pid) = .ok w3 →
        cfg.SavePidRacing other w = (none, w3) ∧
        w3.contents cfg.PidFileDir = some (sprintfD (other w).pid)) ∧
    (∀ e1, osCreate (other w) cfg.PidFileDir = .error e1 →
      cfg.SavePidRacing other w = (some e1, other w) ∧
      (cfg.SavePidRacing other w).2.contents cfg.PidFileDir = some d) ∧
    cfg.SavePidRacing id w = cfg.SavePid w := by
  refine ⟨?_, ?_, ?_, rfl⟩
  · intro hrw hcf
    subst hrw
    simp [osCreate, hcf, hrace]
  · intro w1 fd hc
    obtain ⟨hres, hn1, _, hpid, _, _⟩ := osCreate_ok (other w) w1 _ fd hc
    have hfd : fd = loc := by
      rcases hres with h | ⟨d2, h⟩
      · rw [hrace] at h
        simp at h
      · rw [hrace] at h
        simp only [Except.ok.injEq, Resolved.found.injEq] at h
        exact h.1.symm
    subst hfd
    refine ⟨rfl, hn1, ?_⟩
    intro w3 hw
    have hs : cfg.SavePidRacing other w = (none, w3) := by
      rw [SavePidRacing_of cfg other w e hstat hex]
      simp only [hc, hw]
    have hres3 := (create_write_effect (other w) w1 w3 _ _ _ fd hc hw).2.2.1
    rw [hpid] at hres3
    exact ⟨hs, by simp [World.contents, hres3]⟩
  · intro e1 hc
    have hs : cfg.SavePidRacing other w = (some e1, other w) := by
      rw [SavePidRacing_of cfg other w e hstat hex]
      simp only [hc]
    refine ⟨hs, ?_⟩
    rw [hs]
    simp [World.contents, hrace]

/-- Witness of C5 (amended) with the competing process of the counterexample. -/
theorem C5_create_is_not_exclusive_witness :
    osStat exampleWorld exampleConfig.PidFileDir
      = some (.pathError "stat" "/var/lib/dex/dex.pid" .ENOENT) ∧
    (competitor exampleWorld).resolve exampleConfig.PidFileDir
      = .ok (.found ["var", "lib", "dex", "dex.pid"] (.file "31337" true)) ∧
    osCreate (competitor exampleWorld) exampleConfig.PidFileDir
      = .ok ({ (competitor exampleWorld).bind ["var", "lib", "dex", "dex.pid"] (.file "" true) with
               free := (competitor exampleWorld).free + ("31337" : String).utf8ByteSize },
             ["var", "lib", "dex", "dex.pid"]) :=
  ⟨by decide, by decide,
    (C5_create_is_not_exclusive exampleConfig competitor exampleWorld
      (.pathError "stat" "/var/lib/dex/dex.pid" .ENOENT) ["var", "lib", "dex", "dex.pid"]
      "31337" true (by decide) (by decide) (by decide)).1 rfl rfl⟩

/-! ## Accessors -/

/-- C6: each accessor is `rootify` applied to its backing field and the
current `RootDir` (for `IPCFile`, the `IpcEndpoint` of the `RPC` section the
configuration points to; with a nil `RPC` reading that field panics), so a
configuration with `RootDir` or the backing field overridden yields the value
computed from the new fields. -/
theorem C6_accessors_are_rootify (b : BaseConfig) (rpc : RPCConfig)
    (d wd : Option DaemonConfig) (l : Option RotateConfig) (root field : String) (cfg : Config) :
    (cfg.IPCFile = match cfg.RPC with
      | some r => .ok (rootify r.IpcEndpoint cfg.RootDir)
      | none => .error .nilDereference) ∧
    (b.LogDir = rootify b.LogPath b.RootDir ∧
     b.DBDir = rootify b.DBPath b.RootDir ∧
     b.KeyStoreDir = rootify b.KeyStorePath b.RootDir ∧
     b.PidFileDir = rootify b.Pidfile b.RootDir ∧
     Config.IPCFile { toBaseConfig := b, Daemon := d, WalletDaemon := wd, RPC := some rpc, Log := l }
       = .ok (rootify rpc.IpcEndpoint b.RootDir)) ∧
    (BaseConfig.LogDir { b with RootDir := root } = rootify b.LogPath root ∧
     BaseConfig.DBDir { b with RootDir := root } = rootify b.DBPath root ∧
     BaseConfig.KeyStoreDir { b with RootDir := root } = rootify b.KeyStorePath root ∧
     BaseConfig.PidFileDir { b with RootDir := root } = rootify b.Pidfile root ∧
     Config.IPCFile { toBaseConfig := { b with RootDir := root }, Daemon := d, WalletDaemon := wd,
                      RPC := some rpc, Log := l } = .ok (rootify rpc.IpcEndpoint root)) ∧
    (BaseConfig.LogDir { b with LogPath := field } = rootify field b.RootDir ∧
     BaseConfig.DBDir { b with DBPath := field } = rootify field b.RootDir ∧
     BaseConfig.KeyStoreDir { b with KeyStorePath := field } = rootify field b.RootDir ∧
     BaseConfig.PidFileDir { b with Pidfile := field } = rootify field b.RootDir ∧
     Config.IPCFile { toBaseConfig := b, Daemon := d, WalletDaemon := wd,
                      RPC := some { rpc with IpcEndpoint := field }, Log := l }
       = .ok (rootify field b.RootDir)) :=
  ⟨by cases h : cfg.RPC <;> simp [Config.IPCFile, h],
    ⟨rfl, rfl, rfl, rfl, rfl⟩, ⟨rfl, rfl, rfl, rfl, rfl⟩, ⟨rfl, rfl, rfl, rfl, rfl⟩⟩

/-- C7, as stated, fails: under the default (empty) root, and under any other
relative root, the resolved log directory is a relative path. -/
theorem C7_counterexample_relative_root :
    rootify "logs" "" = "logs" ∧ IsAbs (rootify "logs" "") = false ∧
    rootify "logs" "lkdex" = "lkdex/logs" ∧ IsAbs (rootify "logs" "lkdex") = false ∧
    DefaultBaseConfig.LogDir = "logs" ∧ IsAbs DefaultBaseConfig.LogDir = false := by
  decide

/-- C7, amended: the result of `rootify path root` is an absolute path exactly
when `path` or `root` is absolute; hence each of `LogDir`, `DBDir`,
`KeyStoreDir` and `PidFileDir` is absolute exactly when its backing field or
`RootDir` is absolute. -/
theorem C7_rootify_absolute_iff (path root : String) (cfg : BaseConfig) :
    IsAbs (rootify path root) = (IsAbs path || IsAbs root) ∧
    IsAbs cfg.LogDir = (IsAbs cfg.LogPath || IsAbs cfg.RootDir) ∧
    IsAbs cfg.DBDir = (IsAbs cfg.DBPath || IsAbs cfg.RootDir) ∧
    IsAbs cfg.KeyStoreDir = (IsAbs cfg.KeyStorePath || IsAbs cfg.RootDir) ∧
    IsAbs cfg.PidFileDir = (IsAbs cfg.Pidfile || IsAbs cfg.RootDir) :=
  ⟨IsAbs_rootify _ _, IsAbs_rootify _ _, IsAbs_rootify _ _, IsAbs_rootify _ _, IsAbs_rootify _ _⟩

/-- C8, as stated, fails: on a configuration whose `RPC` section is nil,
`IPCFile` panics with a nil-pointer dereference. -/
theorem C8_counterexample_nil_rpc :
    Config.IPCFile { toBaseConfig := DefaultBaseConfig } = .error .nilDereference ∧
    Config.IPCFile { DefaultConfig with RPC := none } = .error .nilDereference := by
  decide

/-- C8, amended: on every configuration whose `RPC` section is present,
`IPCFile` returns a string, the resolved `IpcEndpoint`; on any configuration
`IPCFile` returns a string exactly when the `RPC` section is not nil, and
panics otherwise; and the one loop of path resolution, in `filepath.Clean`,
ends within as many iterations as the path has unread bytes, whatever its
state, so `rootify`, `LogDir`, `DBDir`, `KeyStoreDir` and `PidFileDir` return
for every input. -/
theorem C8_resolution_total (cfg : Config) (rpc : RPCConfig) (h : cfg.RPC = some rpc)
    (any : Config) (rooted : Bool) (rest out : List Char) (dotdot extra : Nat) :
    cfg.IPCFile = .ok (rootify rpc.IpcEndpoint cfg.RootDir) ∧
    ((∃ s, any.IPCFile = .ok s) ↔ any.RPC ≠ none) ∧
    (any.RPC = none ↔ any.IPCFile = .error .nilDereference) ∧
    (cleanLoop rooted (rest.length + extra) rest out dotdot).isSome = true := by
  refine ⟨by simp [Config.IPCFile, h], ?_, ?_, cleanLoop_isSome _ _ _ _ _ (by omega)⟩
  · cases hr : any.RPC <;> simp [Config.IPCFile, hr]
  · cases hr : any.RPC <;> simp [Config.IPCFile, hr]

/-- Witness of C8 (amended) at the default configuration and the path `a/../b`. -/
theorem C8_resolution_total_witness :
    DefaultConfig.RPC = some DefaultRPCConfig ∧
    DefaultConfig.IPCFile = .ok "dex.ipc" ∧
    (cleanLoop false 6 "a/../b".data [] 0).isSome = true :=
  ⟨rfl,
    (C8_resolution_total DefaultConfig DefaultRPCConfig rfl DefaultConfig false
      "a/../b".data [] 0 0).1,
    (C8_resolution_total DefaultConfig DefaultRPCConfig rfl DefaultConfig false
      "a/../b".data [] 0 0).2.2.2⟩

/-! ## The pid-file guard: errors and frame -/

/-- C9: when the pre-check passes (`os.Stat` fails with an error that is not
an "exists" error), `SavePid` returns nil exactly when both the creation and
the write succeed; when the creation fails it returns the creation's error,
and when the write fails it returns the write's error. -/
theorem C9_SavePid_returns_io_error (cfg : BaseConfig) (w : World) (e : GoError)
    (hstat : osStat w cfg.PidFileDir = some e) (hex : IsExist e = false) :
    ((cfg.SavePid w).1 = none ↔
      ∃ w1 fd w3, osCreate w cfg.PidFileDir = .ok (w1, fd) ∧
        WriteString (Printf w1 (savePidNotice cfg.PidFileDir w1.pid)) cfg.PidFileDir fd
          (sprintfD w1.pid) = .ok w3) ∧
    (∀ e1, osCreate w cfg.PidFileDir = .error e1 → (cfg.SavePid w).1 = some e1) ∧
    (∀ w1 fd e2, osCreate w cfg.PidFileDir = .ok (w1, fd) →
        WriteString (Printf w1 (savePidNotice cfg.PidFileDir w1.pid)) cfg.PidFileDir fd
          (sprintfD w1.pid) = .error e2 → (cfg.SavePid w).1 = some e2) := by
  refine ⟨?_, ?_, ?_⟩
  · cases hc : osCreate w cfg.PidFileDir with
    | error e1 => simp [BaseConfig.SavePid, hstat, hex, hc]
    | ok p =>
      obtain ⟨w1, fd⟩ := p
      cases hw : WriteString (Printf w1 (savePidNotice cfg.PidFileDir w1.pid)) cfg.PidFileDir fd
          (sprintfD w1.pid) with
      | error e2 => simp [BaseConfig.SavePid, hstat, hex, hc, hw]
      | ok w3 =>
        simp [BaseConfig.SavePid, hstat, hex, hc, hw]
        exact ⟨w1, fd, ⟨rfl, rfl⟩, w3, hw⟩
  · intro e1 hc
    simp [BaseConfig.SavePid, hstat, hex, hc]
  · intro w1 fd e2 hc hw
    simp [BaseConfig.SavePid, hstat, hex, hc, hw]

/-- Witness of C9 on a full disk: the pre-check passes, the creation succeeds,
the write fails with `ENOSPC`, and that is the error `SavePid` returns. -/
theorem C9_SavePid_returns_io_error_witness :
    osStat fullWorld exampleConfig.PidFileDir
      = some (.pathError "stat" "/var/lib/dex/dex.pid" .ENOENT) ∧
    (exampleConfig.SavePid fullWorld).1 = some (.pathError "write" "/var/lib/dex/dex.pid" .ENOSPC) :=
  ⟨by decide,
    (C9_SavePid_returns_io_error exampleConfig fullWorld
      (.pathError "stat" "/var/lib/dex/dex.pid" .ENOENT) (by decide) (by decide)).2.2
      (fullWorld.bind ["var", "lib", "dex", "dex.pid"] (.file "" true))
      ["var", "lib", "dex", "dex.pid"] _ (by decide) (by decide)⟩

/-- C10, as stated, fails: on `linkWorld` the pid path is a symbolic link to
`run.pid`; `SavePid` succeeds and the path `/var/lib/dex/run.pid`, which is
not the pid path and did not exist, is then a file holding `4242`, while the
link at the pid path itself is as it was. -/
theorem C10_counterexample_link_target :
    exampleConfig.PidFileDir = "/var/lib/dex/dex.pid" ∧
    osStat linkWorld "/var/lib/dex/run.pid"
      = some (.pathError "stat" "/var/lib/dex/run.pid" .ENOENT) ∧
    (exampleConfig.SavePid linkWorld).1 = none ∧
    osStat (exampleConfig.SavePid linkWorld).2 "/var/lib/dex/run.pid" = none ∧
    (exampleConfig.SavePid linkWorld).2.contents "/var/lib/dex/run.pid" = some "4242" ∧
    (exampleConfig.SavePid linkWorld).2.node ["var", "lib", "dex", "dex.pid"]
      = linkWorld.node ["var", "lib", "dex", "dex.pid"] := by
  decide

/-- C10, amended: whether `SavePid` succeeds or fails, it changes at most the
one file its pid path leads to, symbolic links followed.  Every path name that
leads to another place leads afterwards to the same place with the same node
and contents, and every place other than the one the pid path leads to keeps
its node. -/
theorem C10_SavePid_touches_only_pid_path (cfg : BaseConfig) (w : World) (q : String)
    (r : Resolved) (hr : w.resolve q = .ok r)
    (hq : w.place q ≠ w.place cfg.PidFileDir) :
    (cfg.SavePid w).2.resolve q = .ok r ∧
    (cfg.SavePid w).2.contents q = w.contents q ∧
    (∀ loc, w.place cfg.PidFileDir ≠ some loc → (cfg.SavePid w).2.node loc = w.node loc) := by
  have key : (cfg.SavePid w).2.resolve q = .ok r ∧
      (∀ loc, w.place cfg.PidFileDir ≠ some loc → (cfg.SavePid w).2.node loc = w.node loc) := by
    unfold BaseConfig.SavePid
    simp only []
    split
    · exact ⟨hr, fun _ _ => rfl⟩
    · cases hc : osCreate w cfg.PidFileDir with
      | error e1 => exact ⟨hr, fun _ _ => rfl⟩
      | ok p =>
        obtain ⟨w1, fd⟩ := p
        obtain ⟨hfr1, hall1, hplace⟩ :=
          create_effect w w1 cfg.PidFileDir (savePidNotice cfg.PidFileDir w1.pid) fd hc
        have hloc : r.loc ≠ fd := by
          intro hx
          apply hq
          rw [hplace]
          simp [World.place, hr, hx]
        cases hw : WriteString (Printf w1 (savePidNotice cfg.PidFileDir w1.pid)) cfg.PidFileDir
            fd (sprintfD w1.pid) with
        | error e2 =>
          simp only [hw]
          refine ⟨?_, ?_⟩
          · rw [hall1 q r hr]
            exact Resolved.after_of_ne fd _ r hloc
          · intro loc hl
            exact hfr1 loc (fun h => hl (by rw [hplace, h]))
        | ok w3 =>
          obtain ⟨_, hfr3, _, hall3, _⟩ := create_write_effect w w1 w3 _ _ _ fd hc hw
          simp only [hw]
          refine ⟨?_, ?_⟩
          · rw [hall3 q r hr]
            exact Resolved.after_of_ne fd _ r hloc
          · intro loc hl
            exact hfr3 loc (fun h => hl (by rw [hplace, h]))
  refine ⟨key.1, ?_, key.2⟩
  simp only [World.contents, key.1, hr]

/-- Witness of C10 (amended): a successful `SavePid` and a refused one both
leave the directory `/var/lib/dex`, reached under the name
`/var/lib/./dex/`, as it was. -/
theorem C10_SavePid_touches_only_pid_path_witness :
    ((exampleConfig.SavePid exampleWorld).1 = none ∧
     (exampleConfig.SavePid exampleWorld).2.resolve "/var/lib/./dex/"
       = .ok (.found ["var", "lib", "dex"] (.dir true true))) ∧
    ((exampleConfig.SavePid staleWorld).1 ≠ none ∧
     (exampleConfig.SavePid staleWorld).2.resolve "/var/lib/./dex/"
       = .ok (.found ["var", "lib", "dex"] (.dir true true))) :=
  ⟨⟨by decide,
     (C10_SavePid_touches_only_pid_path exampleConfig exampleWorld "/var/lib/./dex/"
       (.found ["var", "lib", "dex"] (.dir true true)) (by decide) (by decide)).1⟩,
   ⟨by decide,
     (C10_SavePid_touches_only_pid_path exampleConfig staleWorld "/var/lib/./dex/"
       (.found ["var", "lib", "dex"] (.dir true true)) (by decide) (by decide)).1⟩⟩

/-! ## Default values -/

/-- C11: `DefaultBaseConfig()` has an empty password, 1 key-derivation round,
`Detach = false`, `MaxConcurrency = 1`, log level `debug`, backend `leveldb`,
and the paths `data`, `logs` and `dex.pid`, all three relative names; every
other field has Go's zero value. -/
theorem C11_DefaultBaseConfig_values :
    (DefaultBaseConfig.Password = "" ∧ DefaultBaseConfig.KdfRounds = 1 ∧
     DefaultBaseConfig.Detach = false ∧ DefaultBaseConfig.MaxConcurrency = 1 ∧
     DefaultBaseConfig.LogLevel = "debug" ∧ DefaultBaseConfig.DBBackend = "leveldb" ∧
     DefaultBaseConfig.DBPath = "data" ∧ DefaultBaseConfig.LogPath = "logs" ∧
     DefaultBaseConfig.Pidfile = "dex.pid") ∧
    (IsAbs DefaultBaseConfig.DBPath = false ∧ IsAbs DefaultBaseConfig.LogPath = false ∧
     IsAbs DefaultBaseConfig.Pidfile = false) ∧
    DefaultBaseConfig =
      { Password := "", PasswordFile := "", KeystoreFile := "", KdfRounds := 1, Detach := false,
        MaxConcurrency := 1, Pidfile := "dex.pid", LogLevel := "debug", RootDir := "",
        DBBackend := "leveldb", DBPath := "data", KeyStorePath := "", LogPath := "logs",
        LogFile := "", TestNet := false, ContractAddr := "" } := by
  decide

/-- C12: `DefaultRPCConfig()` enables exactly the two HTTP modules `wlt` and
`dex`, in that order, allows every origin and host (`HTTPCores`, `VHosts` and
`WSOrigins` are `["*"]`), and has `IpcEndpoint = dex.ipc`,
`HTTPEndpoint = 127.0.0.1:18804`, `WSEndpoint = 127.0.0.1:18805` and
`WSExposeAll = true`. -/
theorem C12_DefaultRPCConfig_values :
    DefaultRPCConfig.HTTPModules = ["wlt", "dex"] ∧ DefaultRPCConfig.HTTPModules.length = 2 ∧
    DefaultRPCConfig.HTTPCores = ["*"] ∧ DefaultRPCConfig.VHosts = ["*"] ∧
    DefaultRPCConfig.WSOrigins = ["*"] ∧ DefaultRPCConfig.IpcEndpoint = "dex.ipc" ∧
    DefaultRPCConfig.HTTPEndpoint = "127.0.0.1:18804" ∧
    DefaultRPCConfig.WSEndpoint = "127.0.0.1:18805" ∧ DefaultRPCConfig.WSExposeAll = true := by
  decide

/-- C13: `DefaultDaemonConfig()` points at the local pair
`http://127.0.0.1:8000` and `ws://127.0.0.1:8001`, `DefaultWalletDaemonConfig()`
at `http://127.0.0.1:18082` with an empty `PeerWS`; both are trusted, on the
test net and have an empty login. -/
theorem C13_daemon_presets :
    (DefaultDaemonConfig.PeerRPC = "http://127.0.0.1:8000" ∧
     DefaultDaemonConfig.PeerWS = "ws://127.0.0.1:8001" ∧
     DefaultDaemonConfig.Trusted = true ∧ DefaultDaemonConfig.Testnet = true ∧
     DefaultDaemonConfig.Login = "") ∧
    (DefaultWalletDaemonConfig.PeerRPC = "http://127.0.0.1:18082" ∧
     DefaultWalletDaemonConfig.PeerWS = "" ∧
     DefaultWalletDaemonConfig.Trusted = true ∧ DefaultWalletDaemonConfig.Testnet = true ∧
     DefaultWalletDaemonConfig.Login = "") ∧
    DefaultDaemonConfig.PeerRPC ≠ DefaultWalletDaemonConfig.PeerRPC := by
  decide

/-- C14: `DefaultRotateConfig()` has the file name `dex.log`, daily rotation,
7 days kept, rotation enabled, permission `0444` for rotated files and `0664`
for the active file. -/
theorem C14_DefaultRotateConfig_values :
    DefaultRotateConfig.Filename = "dex.log" ∧ DefaultRotateConfig.Daily = true ∧
    DefaultRotateConfig.MaxDays = 7 ∧ DefaultRotateConfig.Rotate = true ∧
    DefaultRotateConfig.RotatePerm = "0444" ∧ DefaultRotateConfig.Perm = "0664" := by
  decide

/-- C15: `DefaultConfig()` is one fixed, fully populated tree: its base part is
`DefaultBaseConfig()`, and its `Daemon`, `WalletDaemon`, `RPC` and `Log`
sections are non-nil and hold `DefaultDaemonConfig()`,
`DefaultWalletDaemonConfig()`, `DefaultRPCConfig()` and `DefaultRotateConfig()`;
written out field by field it is the tree below, whoever builds it. -/
theorem C15_DefaultConfig_populated :
    DefaultConfig.toBaseConfig = DefaultBaseConfig ∧
    (DefaultConfig.Daemon.isSome = true ∧ DefaultConfig.WalletDaemon.isSome = true ∧
     DefaultConfig.RPC.isSome = true ∧ DefaultConfig.Log.isSome = true) ∧
    (DefaultConfig.Daemon = some DefaultDaemonConfig ∧
     DefaultConfig.WalletDaemon = some DefaultWalletDaemonConfig ∧
     DefaultConfig.RPC = some DefaultRPCConfig ∧
     DefaultConfig.Log = some DefaultRotateConfig) ∧
    DefaultConfig =
      { Password := "", PasswordFile := "", KeystoreFile := "", KdfRounds := 1, Detach := false,
        MaxConcurrency := 1, Pidfile := "dex.pid", LogLevel := "debug", RootDir := "",
        DBBackend := "leveldb", DBPath := "data", KeyStorePath := "", LogPath := "logs",
        LogFile := "", TestNet := false, ContractAddr := "",
        Daemon := some { PeerRPC := "http://127.0.0.1:8000", PeerWS := "ws://127.0.0.1:8001",
                         Login := "", Trusted := true, Testnet := true },
        WalletDaemon := some { PeerRPC := "http://127.0.0.1:18082", PeerWS := "", Login := "",
                               Trusted := true, Testnet := true },
        RPC := some { IpcEndpoint := "dex.ipc", HTTPEndpoint := "127.0.0.1:18804",
                      HTTPModules := ["wlt", "dex"], HTTPCores := ["*"], VHosts := ["*"],
                      WSEndpoint := "127.0.0.1:18805", WSModules := ["wlt", "dex"],
                      WSOrigins := ["*"], WSExposeAll := true },
        Log := some { Filename := "dex.log", Daily := true, MaxDays := 7, Rotate := true,
                      RotatePerm := "0444", Perm := "0664" } } := by
  decide

/-- C16, evaluated on the code: `DefaultLogLevel()` returns `debug`, not the
`info` its doc comment announces. -/
theorem C16_DefaultLogLevel_is_debug :
    DefaultLogLevel = "debug" ∧ DefaultLogLevel ≠ "info" := by
  decide

/-! ## Path resolution: scenarios and consequences -/

/-- C17: with `RootDir = /var/lib/dex` and `LogPath = logs`, `LogDir()` is
`/var/lib/dex/logs`; and for the default configuration with `RootDir`
overridden to `/var/lib/dex`, `LogDir()`, `DBDir()`, `PidFileDir()` and
`IPCFile()` are `/var/lib/dex/logs`, `/var/lib/dex/data`,
`/var/lib/dex/dex.pid` and `/var/lib/dex/dex.ipc`. -/
theorem C17_scenario_var_lib_dex :
    BaseConfig.LogDir { RootDir := "/var/lib/dex", LogPath := "logs" } = "/var/lib/dex/logs" ∧
    BaseConfig.LogDir { DefaultBaseConfig with RootDir := "/var/lib/dex" } = "/var/lib/dex/logs" ∧
    BaseConfig.DBDir { DefaultBaseConfig with RootDir := "/var/lib/dex" } = "/var/lib/dex/data" ∧
    BaseConfig.PidFileDir { DefaultBaseConfig with RootDir := "/var/lib/dex" }
      = "/var/lib/dex/dex.pid" ∧
    Config.IPCFile { DefaultConfig with RootDir := "/var/lib/dex" } = .ok "/var/lib/dex/dex.ipc" := by
  decide

/-- C18: when `Pidfile` is an absolute path, `PidFileDir()` returns it
unchanged whatever `RootDir` is. -/
theorem C18_absolute_pidfile_ignores_root (cfg : BaseConfig) (root : String)
    (h : IsAbs cfg.Pidfile = true) :
    BaseConfig.PidFileDir { cfg with RootDir := root } = cfg.Pidfile ∧
    cfg.PidFileDir = cfg.Pidfile := by
  simp [BaseConfig.PidFileDir, rootify, h]

/-- Witness of C18: `RootDir = /var/lib/dex`, `Pidfile = /run/dex.pid` gives
`/run/dex.pid`. -/
theorem C18_absolute_pidfile_ignores_root_witness :
    IsAbs "/run/dex.pid" = true ∧
    BaseConfig.PidFileDir { RootDir := "/var/lib/dex", Pidfile := "/run/dex.pid" }
      = "/run/dex.pid" :=
  ⟨by decide,
    (C18_absolute_pidfile_ignores_root { RootDir := "/var/lib/dex", Pidfile := "/run/dex.pid" }
      "/var/lib/dex" (by decide)).2⟩

/-- C19: under an absolute root `r`, `rootify p r` is absolute for every path
`p`, and resolving again under `r` changes nothing. -/
theorem C19_rootify_idempotent (p r : String) (h : IsAbs r = true) :
    IsAbs (rootify p r) = true ∧ rootify (rootify p r) r = rootify p r := by
  have ha : IsAbs (rootify p r) = true := by
    rw [IsAbs_rootify, h, Bool.or_true]
  refine ⟨ha, ?_⟩
  generalize rootify p r = q at ha
  simp [rootify, ha]

/-- Witness of C19 at the relative path `../logs/` under `/var/lib/dex`. -/
theorem C19_rootify_idempotent_witness :
    IsAbs "/var/lib/dex" = true ∧ rootify "../logs/" "/var/lib/dex" = "/var/lib/logs" ∧
    rootify (rootify "../logs/" "/var/lib/dex") "/var/lib/dex"
      = rootify "../logs/" "/var/lib/dex" :=
  ⟨by decide, by decide, (C19_rootify_idempotent "../logs/" "/var/lib/dex" (by decide)).2⟩

/-- C20: the defaults leave `KeyStorePath` and `RootDir` empty.  With
`RootDir` overridden to `r`, `KeyStoreDir()` is `filepath.Join(r, "")`, which
is the cleaned `r` itself (and `""` for an empty `r`); with `RootDir` left at
its default, `LogDir()`, `DBDir()`, `PidFileDir()` and `KeyStoreDir()` are
`logs`, `data`, `dex.pid` and `""`. -/
theorem C20_default_keystore_is_root (r : String) :
    (DefaultBaseConfig.KeyStorePath = "" ∧ DefaultBaseConfig.RootDir = "" ∧
     DefaultConfig.KeyStorePath = "" ∧ DefaultConfig.RootDir = "") ∧
    BaseConfig.KeyStoreDir { DefaultBaseConfig with RootDir := r } = Join [r, ""] ∧
    Join [r, ""] = (if r = "" then "" else Clean r) ∧
    (DefaultBaseConfig.LogDir = "logs" ∧ DefaultBaseConfig.DBDir = "data" ∧
     DefaultBaseConfig.PidFileDir = "dex.pid" ∧ DefaultBaseConfig.KeyStoreDir = "") := by
  refine ⟨by decide, ?_, ?_, by decide⟩
  · simp [BaseConfig.KeyStoreDir, rootify, IsAbs, DefaultBaseConfig]
  · by_cases hr : r = ""
    · simp [Join, hr]
    · simp [Join, hr, stringsJoin, Clean_append_sep r hr]

end Lkdex
